import Mathlib

/-!
# Offline region definitions (`platform/default/mbgl/storage/offline.cpp`)

A shallow embedding of the offline region definitions: the two definition
variants with their validating constructors, the zoom clamp and the per-zoom
tile enumeration, and the JSON codec over a model of the rapidjson DOM.

Conventions.
* C++ exceptions, and assertions that abort, are the `Failure` values of an
  `Except Failure _` result.
* `double` is `Dbl`: NaN, the two infinities, or a finite value held exactly as
  a rational (the sign of zero is not tracked).  `float` values are held in the
  same carrier; the narrowing conversion `double → float` is a parameter.
* `uint8_t`, `uint16_t` and `uint64_t` are `Nat`, reduced modulo `2 ^ w` where
  the source can overflow.
* Library functions that the file calls but does not define
  (`util::coveringZoomLevel`, `util::tileCover`, `util::tileCount`, the JSON
  parser and writer, the GeoJSON converters) are parameters.
-/

namespace mbgl

/-! ## Numbers -/

/-- An IEEE-754 value: NaN, minus infinity, a finite value, or plus infinity. -/
inductive Dbl where
  | nan
  | negInf
  | fin (q : ℚ)
  | posInf
  deriving DecidableEq

namespace Dbl

/-- The `<` of C++ on floating-point values: false as soon as one side is NaN. -/
def lt : Dbl → Dbl → Bool
  | fin a, fin b => decide (a < b)
  | negInf, fin _ => true
  | negInf, posInf => true
  | fin _, posInf => true
  | _, _ => false

/-- The `<=` of C++ on floating-point values: false as soon as one side is NaN. -/
def le : Dbl → Dbl → Bool
  | fin a, fin b => decide (a ≤ b)
  | negInf, negInf => true
  | negInf, fin _ => true
  | negInf, posInf => true
  | fin _, posInf => true
  | posInf, posInf => true
  | _, _ => false

/-- `std::isnan`. -/
def isnan : Dbl → Bool
  | nan => true
  | _ => false

/-- `std::isfinite`. -/
def isfinite : Dbl → Bool
  | fin _ => true
  | _ => false

/-- `std::min(a, b)`, which is `(b < a) ? b : a`. -/
def min (a b : Dbl) : Dbl := if lt b a then b else a

/-- `std::max(a, b)`, which is `(a < b) ? b : a`. -/
def max (a b : Dbl) : Dbl := if lt a b then b else a

/-- The literal `0`. -/
def zero : Dbl := fin 0

/-- Conversion of an integer to `double`. -/
def ofInt (i : Int) : Dbl := fin i

end Dbl

/-! ## Failures -/

deriving instance DecidableEq for Except

/-- The ways a call can fail to return: the two exception classes thrown by
`offline.cpp` (with their `what()` text), an exception thrown by the GeoJSON
converter, and a failed `assert` / `RAPIDJSON_ASSERT`. -/
inductive Failure where
  | runtime_error (what : String)
  | invalid_argument (what : String)
  | geojson_error
  | assertion
  deriving DecidableEq

/-- The `std::runtime_error` thrown by `decodeOfflineRegionDefinition`. -/
def malformed : Failure := .runtime_error "Malformed offline region definition"

/-- The `std::invalid_argument` thrown by the two constructors. -/
def invalidDefinition : Failure := .invalid_argument "Invalid offline region definition"

/-! ## Geography -/

/-- Modelled from the spec: `LatLng` (mbgl/util/geo.hpp), a point in degrees. -/
structure LatLng where
  latitude : Dbl
  longitude : Dbl
  deriving DecidableEq

/-- Modelled from the spec: `LatLngBounds` (mbgl/util/geo.hpp), the geographic
rectangle given by its south-west and north-east corners. -/
structure LatLngBounds where
  sw : LatLng
  ne : LatLng
  deriving DecidableEq

namespace LatLngBounds

def south (b : LatLngBounds) : Dbl := b.sw.latitude
def west (b : LatLngBounds) : Dbl := b.sw.longitude
def north (b : LatLngBounds) : Dbl := b.ne.latitude
def east (b : LatLngBounds) : Dbl := b.ne.longitude

/-- Modelled from the spec: `LatLngBounds::hull`, which "normalizes two corner
points into a canonical bounding rectangle": the bounds of `a`, extended to
contain `b`. -/
def hull (a b : LatLng) : LatLngBounds :=
  { sw := ⟨Dbl.min b.latitude a.latitude, Dbl.min b.longitude a.longitude⟩
    ne := ⟨Dbl.max b.latitude a.latitude, Dbl.max b.longitude a.longitude⟩ }

/-- Modelled from the spec: `LatLngBounds::world`, the whole world. -/
def world : LatLngBounds :=
  { sw := ⟨.fin (-90), .fin (-180)⟩, ne := ⟨.fin 90, .fin 180⟩ }

/-- Modelled from the spec: `LatLngBounds::empty`, the empty bounding box that
the test `TileCoverEmpty` passes to the constructor: the world with its two
corners exchanged, so that south lies above north and west beyond east. -/
def empty : LatLngBounds := { sw := world.ne, ne := world.sw }

end LatLngBounds

/-- Modelled from the spec: a point of a geometry, `(x, y)` = (longitude, latitude). -/
structure Point where
  x : Dbl
  y : Dbl
  deriving DecidableEq

/-- Modelled from the spec: `Geometry<double>`, "one of {Point, MultiPoint,
LineString, MultiLineString, Polygon, MultiPolygon}". -/
inductive Geometry where
  | point (p : Point)
  | multiPoint (ps : List Point)
  | lineString (ps : List Point)
  | multiLineString (ls : List (List Point))
  | polygon (rings : List (List Point))
  | multiPolygon (ps : List (List (List Point)))
  deriving DecidableEq

/-! ## Tiles and zoom ranges -/

/-- Modelled from the spec: `style::SourceType`, "enum{Vector,Raster,...}". -/
inductive SourceType where
  | Vector
  | Raster
  | GeoJSON
  | Video
  | Annotations
  | Image
  deriving DecidableEq

/-- Modelled from the spec: `CanonicalTileID`, a tile index `(zoom, x, y)`. -/
structure CanonicalTileID where
  z : Nat
  x : Nat
  y : Nat
  deriving DecidableEq

/-- Modelled from the spec: `UnwrappedTileID`, what `util::tileCover` yields:
a canonical tile with the number of the world copy it lies in. -/
structure UnwrappedTileID where
  wrap : Int
  canonical : CanonicalTileID
  deriving DecidableEq

/-- `Range<uint8_t>`. -/
structure Range where
  min : Nat
  max : Nat
  deriving DecidableEq

/-! ## The two definitions -/

structure OfflineTilePyramidRegionDefinition where
  styleURL : String
  bounds : LatLngBounds
  minZoom : Dbl
  maxZoom : Dbl
  pixelRatio : Dbl
  deriving DecidableEq

structure OfflineGeometryRegionDefinition where
  styleURL : String
  geometry : Geometry
  minZoom : Dbl
  maxZoom : Dbl
  pixelRatio : Dbl
  deriving DecidableEq

/-- The condition under which both constructors throw. -/
def invalidZoomOrRatio (minZoom maxZoom pixelRatio : Dbl) : Bool :=
  Dbl.lt minZoom Dbl.zero || Dbl.lt maxZoom Dbl.zero || Dbl.lt maxZoom minZoom
    || Dbl.lt pixelRatio Dbl.zero
    || !Dbl.isfinite minZoom || Dbl.isnan maxZoom || !Dbl.isfinite pixelRatio

/-- The constructor `OfflineTilePyramidRegionDefinition::OfflineTilePyramidRegionDefinition`. -/
def OfflineTilePyramidRegionDefinition.construct (styleURL_ : String) (bounds_ : LatLngBounds)
    (minZoom_ maxZoom_ pixelRatio_ : Dbl) : Except Failure OfflineTilePyramidRegionDefinition :=
  if invalidZoomOrRatio minZoom_ maxZoom_ pixelRatio_ then
    .error invalidDefinition
  else
    .ok { styleURL := styleURL_, bounds := bounds_, minZoom := minZoom_,
          maxZoom := maxZoom_, pixelRatio := pixelRatio_ }

/-- The constructor `OfflineGeometryRegionDefinition::OfflineGeometryRegionDefinition`. -/
def OfflineGeometryRegionDefinition.construct (styleURL_ : String) (geometry_ : Geometry)
    (minZoom_ maxZoom_ pixelRatio_ : Dbl) : Except Failure OfflineGeometryRegionDefinition :=
  if invalidZoomOrRatio minZoom_ maxZoom_ pixelRatio_ then
    .error invalidDefinition
  else
    .ok { styleURL := styleURL_, geometry := geometry_, minZoom := minZoom_,
          maxZoom := maxZoom_, pixelRatio := pixelRatio_ }

/-- `OfflineRegionDefinition`, the variant of the two definitions. -/
inductive OfflineRegionDefinition where
  | tilePyramid (d : OfflineTilePyramidRegionDefinition)
  | geometry (d : OfflineGeometryRegionDefinition)
  deriving DecidableEq

namespace OfflineRegionDefinition

def styleURL : OfflineRegionDefinition → String
  | tilePyramid d => d.styleURL
  | geometry d => d.styleURL

def minZoom : OfflineRegionDefinition → Dbl
  | tilePyramid d => d.minZoom
  | geometry d => d.minZoom

def maxZoom : OfflineRegionDefinition → Dbl
  | tilePyramid d => d.maxZoom
  | geometry d => d.maxZoom

def pixelRatio : OfflineRegionDefinition → Dbl
  | tilePyramid d => d.pixelRatio
  | geometry d => d.pixelRatio

/-- The definition is one that its constructor returns. -/
def Constructed : OfflineRegionDefinition → Prop
  | tilePyramid d =>
      OfflineTilePyramidRegionDefinition.construct d.styleURL d.bounds d.minZoom d.maxZoom
        d.pixelRatio = .ok d
  | geometry d =>
      OfflineGeometryRegionDefinition.construct d.styleURL d.geometry d.minZoom d.maxZoom
        d.pixelRatio = .ok d

end OfflineRegionDefinition

/-! ## Zoom clamp and tile enumeration -/

/-- The template `coveringZoomRange`, at the two fields of the definition that
it reads.  `coveringZoomLevel` is `util::coveringZoomLevel`, which returns an
integer; that integer and the `uint8_t` ends of `zoomRange` convert to `double`
exactly, so `minZ` and `maxZ` are integers.  The four `assert`s fail with
`Failure.assertion`; when they pass, both casts to `uint8_t` are exact. -/
def coveringZoomRange (coveringZoomLevel : Dbl → SourceType → Nat → Int)
    (minZoom maxZoom : Dbl) (type : SourceType) (tileSize : Nat) (zoomRange : Range) :
    Except Failure Range :=
  let minZ : Int := Max.max (coveringZoomLevel minZoom type tileSize) (zoomRange.min : Int)
  let maxZ : Int := Min.min (coveringZoomLevel maxZoom type tileSize) (zoomRange.max : Int)
  if 0 ≤ minZ ∧ 0 ≤ maxZ ∧ minZ < 255 ∧ maxZ < 255 then
    .ok { min := minZ.toNat, max := maxZ.toNat }
  else
    .error .assertion

/-- The template `coveringZoomRange` as compiled with `NDEBUG`, where the four
`assert`s expand to nothing.  The cast of a `double` to `uint8_t` is defined
when the value, here an integer, lies in `[0, 255]`, and then gives that value;
for any other value the behaviour is undefined, and the result is `none`. -/
def coveringZoomRangeNDEBUG (coveringZoomLevel : Dbl → SourceType → Nat → Int)
    (minZoom maxZoom : Dbl) (type : SourceType) (tileSize : Nat) (zoomRange : Range) :
    Option Range :=
  let minZ : Int := Max.max (coveringZoomLevel minZoom type tileSize) (zoomRange.min : Int)
  let maxZ : Int := Min.min (coveringZoomLevel maxZoom type tileSize) (zoomRange.max : Int)
  if 0 ≤ minZ ∧ minZ ≤ 255 ∧ 0 ≤ maxZ ∧ maxZ ≤ 255 then
    some { min := minZ.toNat, max := maxZ.toNat }
  else
    none

/-- What a run of the loop of `_tileCover` has done so far: the tiles appended
to `result`, and the zooms at which `util::tileCover` was called, in order. -/
structure CoverRun where
  result : List CanonicalTileID
  calls : List Nat
  deriving DecidableEq

/-- The loop `for (uint8_t z = min; z <= max; z++)` of `_tileCover`, entered
with the counter at `z`.  Each iteration calls `tileCover z` and appends the
canonical id of every tile it yields; `z++` wraps modulo 256.  The first
argument bounds the number of evaluations of the loop condition; `none` means
that the loop was still running when the bound was reached. -/
def tileCoverLoop (tileCover : Nat → List UnwrappedTileID) (max : Nat) :
    Nat → Nat → CoverRun → Option CoverRun
  | 0, _, _ => none
  | fuel + 1, z, run =>
    if z ≤ max then
      tileCoverLoop tileCover max fuel ((z + 1) % 256)
        { result := run.result ++ (tileCover z).map (fun tile => tile.canonical)
          calls := run.calls ++ [z] }
    else
      some run

/-- What a run of the loop of `_tileCount` has done so far: the running sum
`result`, and the zooms at which `util::tileCount` was called, in order. -/
structure CountRun where
  result : Nat
  calls : List Nat
  deriving DecidableEq

/-- The loop of `_tileCount`, entered with the counter at `z`: `result` is an
`unsigned long`, so the sum is taken modulo `2 ^ 64`. -/
def tileCountLoop (tileCount : Nat → Nat) (max : Nat) : Nat → Nat → CountRun → Option CountRun
  | 0, _, _ => none
  | fuel + 1, z, run =>
    if z ≤ max then
      tileCountLoop tileCount max fuel ((z + 1) % 256)
        { result := (run.result + tileCount z) % 2 ^ 64
          calls := run.calls ++ [z] }
    else
      some run

/-- The template `_tileCover`.  `tileCover` is `util::tileCover`, for the type
of area `G` of the definition.  The result is a failure when an `assert` of
`coveringZoomRange` fails, `none` when the loop has not ended within `fuel`
evaluations of its condition, and otherwise the run of the loop. -/
def _tileCover {G : Type} (fuel : Nat) (coveringZoomLevel : Dbl → SourceType → Nat → Int)
    (tileCover : G → Nat → List UnwrappedTileID) (minZoom maxZoom : Dbl) (geometry : G)
    (type : SourceType) (tileSize : Nat) (zoomRange : Range) :
    Except Failure (Option CoverRun) :=
  match coveringZoomRange coveringZoomLevel minZoom maxZoom type tileSize zoomRange with
  | .error e => .error e
  | .ok clampedZoomRange =>
    .ok (tileCoverLoop (tileCover geometry) clampedZoomRange.max fuel clampedZoomRange.min
          { result := [], calls := [] })

/-- The template `_tileCount`.  `tileCount` is `util::tileCount`. -/
def _tileCount {G : Type} (fuel : Nat) (coveringZoomLevel : Dbl → SourceType → Nat → Int)
    (tileCount : G → Nat → Nat) (minZoom maxZoom : Dbl) (geometry : G)
    (type : SourceType) (tileSize : Nat) (zoomRange : Range) :
    Except Failure (Option CountRun) :=
  match coveringZoomRange coveringZoomLevel minZoom maxZoom type tileSize zoomRange with
  | .error e => .error e
  | .ok clampedZoomRange =>
    .ok (tileCountLoop (tileCount geometry) clampedZoomRange.max fuel clampedZoomRange.min
          { result := 0, calls := [] })

/-- The external covering services: `util::coveringZoomLevel`, and the
overloads of `util::tileCover` and `util::tileCount` for a bounding box and for
a geometry. -/
structure CoverService where
  coveringZoomLevel : Dbl → SourceType → Nat → Int
  tileCoverBounds : LatLngBounds → Nat → List UnwrappedTileID
  tileCoverGeometry : Geometry → Nat → List UnwrappedTileID
  tileCountBounds : LatLngBounds → Nat → Nat
  tileCountGeometry : Geometry → Nat → Nat

/-- `OfflineTilePyramidRegionDefinition::tileCover`. -/
def OfflineTilePyramidRegionDefinition.tileCover (fuel : Nat) (s : CoverService)
    (d : OfflineTilePyramidRegionDefinition) (type : SourceType) (tileSize : Nat)
    (zoomRange : Range) : Except Failure (Option CoverRun) :=
  _tileCover fuel s.coveringZoomLevel s.tileCoverBounds d.minZoom d.maxZoom d.bounds
    type tileSize zoomRange

/-- `OfflineTilePyramidRegionDefinition::tileCount`. -/
def OfflineTilePyramidRegionDefinition.tileCount (fuel : Nat) (s : CoverService)
    (d : OfflineTilePyramidRegionDefinition) (type : SourceType) (tileSize : Nat)
    (zoomRange : Range) : Except Failure (Option CountRun) :=
  _tileCount fuel s.coveringZoomLevel s.tileCountBounds d.minZoom d.maxZoom d.bounds
    type tileSize zoomRange

/-- `OfflineGeometryRegionDefinition::tileCover`. -/
def OfflineGeometryRegionDefinition.tileCover (fuel : Nat) (s : CoverService)
    (d : OfflineGeometryRegionDefinition) (type : SourceType) (tileSize : Nat)
    (zoomRange : Range) : Except Failure (Option CoverRun) :=
  _tileCover fuel s.coveringZoomLevel s.tileCoverGeometry d.minZoom d.maxZoom d.geometry
    type tileSize zoomRange

/-- `OfflineGeometryRegionDefinition::tileCount`. -/
def OfflineGeometryRegionDefinition.tileCount (fuel : Nat) (s : CoverService)
    (d : OfflineGeometryRegionDefinition) (type : SourceType) (tileSize : Nat)
    (zoomRange : Range) : Except Failure (Option CountRun) :=
  _tileCount fuel s.coveringZoomLevel s.tileCountGeometry d.minZoom d.maxZoom d.geometry
    type tileSize zoomRange

namespace OfflineRegionDefinition

/-- The method `tileCover` of either variant. -/
def tileCover (fuel : Nat) (s : CoverService) (d : OfflineRegionDefinition) (type : SourceType)
    (tileSize : Nat) (zoomRange : Range) : Except Failure (Option CoverRun) :=
  match d with
  | tilePyramid p => p.tileCover fuel s type tileSize zoomRange
  | geometry g => g.tileCover fuel s type tileSize zoomRange

/-- The method `tileCount` of either variant. -/
def tileCount (fuel : Nat) (s : CoverService) (d : OfflineRegionDefinition) (type : SourceType)
    (tileSize : Nat) (zoomRange : Range) : Except Failure (Option CountRun) :=
  match d with
  | tilePyramid p => p.tileCount fuel s type tileSize zoomRange
  | geometry g => g.tileCount fuel s type tileSize zoomRange

/-- The clamped zoom range of either variant. -/
def clampedZoomRange (s : CoverService) (d : OfflineRegionDefinition) (type : SourceType)
    (tileSize : Nat) (zoomRange : Range) : Except Failure Range :=
  coveringZoomRange s.coveringZoomLevel d.minZoom d.maxZoom type tileSize zoomRange

/-- The sequence `TileCover(area, z)` of the service for the area of the
definition: its bounds, or its geometry. -/
def areaCover (s : CoverService) : OfflineRegionDefinition → Nat → List UnwrappedTileID
  | tilePyramid p => s.tileCoverBounds p.bounds
  | geometry g => s.tileCoverGeometry g.geometry

/-- The number `TileCount(area, z)` of the service for the area of the definition. -/
def areaCount (s : CoverService) : OfflineRegionDefinition → Nat → Nat
  | tilePyramid p => s.tileCountBounds p.bounds
  | geometry g => s.tileCountGeometry g.geometry

end OfflineRegionDefinition

/-! ## The rapidjson document model -/

/-- A value of the rapidjson DOM (`GenericValue`).  A number carries the flag
of the type it was stored or parsed as: `int` stands for the integer flags
(a literal with neither fraction nor exponent that fits a 64-bit integer),
`double` for `kDoubleFlag`.  An object is its members in insertion order. -/
inductive JValue where
  | null
  | bool (b : Bool)
  | int (i : Int)
  | double (d : Dbl)
  | string (s : String)
  | array (xs : List JValue)
  | object (ms : List (String × JValue))

/-- The first member named `name`, as `FindMember` searches for it. -/
def findMember (name : String) : List (String × JValue) → Option JValue
  | [] => none
  | (k, v) :: ms => if k = name then some v else findMember name ms

namespace JValue

def IsObject : JValue → Bool
  | object _ => true
  | _ => false

def IsArray : JValue → Bool
  | array _ => true
  | _ => false

def IsString : JValue → Bool
  | string _ => true
  | _ => false

/-- `IsNumber`: the value has any of the number flags. -/
def IsNumber : JValue → Bool
  | int _ => true
  | double _ => true
  | _ => false

/-- `IsDouble`: the value has `kDoubleFlag`; false for a number stored as an integer. -/
def IsDouble : JValue → Bool
  | double _ => true
  | _ => false

/-- `HasMember(name)`, which asserts `IsObject()`. -/
def HasMember (v : JValue) (name : String) : Except Failure Bool :=
  match v with
  | object ms => .ok (findMember name ms).isSome
  | _ => .error .assertion

/-- `operator[](const char*)`, which asserts `IsObject()` and that the member exists. -/
def member (v : JValue) (name : String) : Except Failure JValue :=
  match v with
  | object ms =>
    match findMember name ms with
    | some x => .ok x
    | none => .error .assertion
  | _ => .error .assertion

/-- `Size()`, which asserts `IsArray()`. -/
def Size : JValue → Except Failure Nat
  | array xs => .ok xs.length
  | _ => .error .assertion

/-- `operator[](SizeType)`, which asserts `IsArray()` and `index < Size()`. -/
def element (v : JValue) (index : Nat) : Except Failure JValue :=
  match v with
  | array xs =>
    match xs.get? index with
    | some x => .ok x
    | none => .error .assertion
  | _ => .error .assertion

/-- `GetDouble()`, which asserts `IsNumber()` and converts an integer to `double`. -/
def GetDouble : JValue → Except Failure Dbl
  | double d => .ok d
  | int i => .ok (Dbl.ofInt i)
  | _ => .error .assertion

/-- `GetString()` with `GetStringLength()`, which assert `IsString()`. -/
def GetString : JValue → Except Failure String
  | string s => .ok s
  | _ => .error .assertion

/-- `GetObject()`, which asserts `IsObject()`. -/
def GetObject : JValue → Except Failure JValue
  | object ms => .ok (object ms)
  | _ => .error .assertion

end JValue

/-- A `GenericDocument` after `Parse`: whether the parse failed, and the root value. -/
structure Document where
  HasParseError : Bool
  root : JValue

/-- The operator `a && b` on operands that may fail an assertion: `b` is
evaluated only when `a` is true. -/
def andThen (a b : Except Failure Bool) : Except Failure Bool :=
  match a with
  | .ok true => b
  | .ok false => .ok false
  | .error e => .error e

/-- The operator `a || b` on operands that may fail an assertion: `b` is
evaluated only when `a` is false. -/
def orElse (a b : Except Failure Bool) : Except Failure Bool :=
  match a with
  | .ok false => b
  | .ok true => .ok true
  | .error e => .error e

/-- The operator `!a`. -/
def notE (a : Except Failure Bool) : Except Failure Bool :=
  match a with
  | .ok b => .ok (!b)
  | .error e => .error e

/-- The library functions called by the codec: `doc.Parse<0>`, the `Writer`
(`doc.Accept(writer)` then `buffer.GetString()`), the two directions of
`mapbox::geojson::convert`, and the conversion of a `double` to `float`. -/
structure CodecLibrary where
  Parse : String → Document
  Write : JValue → String
  toGeometry : JValue → Except Failure Geometry
  fromGeometry : Geometry → JValue
  toFloat : Dbl → Dbl

/-! ## Decoding -/

/-- The lambda `hasValidBounds` of `decodeOfflineRegionDefinition`. -/
def hasValidBounds (doc : JValue) : Except Failure Bool :=
  andThen (doc.HasMember "bounds")
  (andThen ((doc.member "bounds").map JValue.IsArray)
  (andThen ((doc.member "bounds" >>= JValue.Size).map (fun n => n == 4))
  (andThen ((doc.member "bounds" >>= fun b => b.element 0).map JValue.IsDouble)
  (andThen ((doc.member "bounds" >>= fun b => b.element 1).map JValue.IsDouble)
  (andThen ((doc.member "bounds" >>= fun b => b.element 2).map JValue.IsDouble)
           ((doc.member "bounds" >>= fun b => b.element 3).map JValue.IsDouble))))))

/-- The lambda `hasValidGeometry` of `decodeOfflineRegionDefinition`. -/
def hasValidGeometry (doc : JValue) : Except Failure Bool :=
  andThen (doc.HasMember "geometry") ((doc.member "geometry").map JValue.IsObject)

/-- The condition of the `if` that throws "Malformed offline region definition". -/
def isMalformed (doc : Document) : Except Failure Bool :=
  orElse (.ok doc.HasParseError)
  (orElse (notE (doc.root.HasMember "style_url"))
  (orElse (notE ((doc.root.member "style_url").map JValue.IsString))
  (orElse (notE (orElse (hasValidBounds doc.root) (hasValidGeometry doc.root)))
  (orElse (notE (doc.root.HasMember "min_zoom"))
  (orElse (notE ((doc.root.member "min_zoom").map JValue.IsDouble))
  (orElse (andThen (doc.root.HasMember "max_zoom")
                   (notE ((doc.root.member "max_zoom").map JValue.IsDouble)))
  (orElse (notE (doc.root.HasMember "pixel_ratio"))
          (notE ((doc.root.member "pixel_ratio").map JValue.IsDouble)))))))))

/-- The part of `decodeOfflineRegionDefinition` below the validation: the
common properties, then the choice of the variant on `doc.HasMember("bounds")`
and the call of its constructor. -/
def decodeValidated (L : CodecLibrary) (doc : JValue) :
    Except Failure OfflineRegionDefinition := do
  let styleURL ← doc.member "style_url" >>= JValue.GetString
  let minZoom ← doc.member "min_zoom" >>= JValue.GetDouble
  let hasMaxZoom ← doc.HasMember "max_zoom"
  let maxZoom ←
    if hasMaxZoom then doc.member "max_zoom" >>= JValue.GetDouble else pure Dbl.posInf
  let pixelRatio := L.toFloat (← doc.member "pixel_ratio" >>= JValue.GetDouble)
  let hasBounds ← doc.HasMember "bounds"
  if hasBounds then
    let bounds ← doc.member "bounds"
    let b0 ← bounds.element 0 >>= JValue.GetDouble
    let b1 ← bounds.element 1 >>= JValue.GetDouble
    let b2 ← bounds.element 2 >>= JValue.GetDouble
    let b3 ← bounds.element 3 >>= JValue.GetDouble
    let d ← OfflineTilePyramidRegionDefinition.construct styleURL
      (LatLngBounds.hull ⟨b0, b1⟩ ⟨b2, b3⟩) minZoom maxZoom pixelRatio
    pure (.tilePyramid d)
  else
    let geometry ← doc.member "geometry" >>= JValue.GetObject >>= L.toGeometry
    let d ← OfflineGeometryRegionDefinition.construct styleURL geometry minZoom maxZoom pixelRatio
    pure (.geometry d)

/-- The body of `decodeOfflineRegionDefinition` after `doc.Parse<0>`: the
validation, which throws `std::runtime_error`, then the construction. -/
def decodeDocument (L : CodecLibrary) (doc : Document) : Except Failure OfflineRegionDefinition :=
  match isMalformed doc with
  | .error e => .error e
  | .ok true => .error malformed
  | .ok false => decodeValidated L doc.root

/-- `decodeOfflineRegionDefinition`. -/
def decodeOfflineRegionDefinition (L : CodecLibrary) (region : String) :
    Except Failure OfflineRegionDefinition :=
  decodeDocument L (L.Parse region)

/-! ## Encoding -/

/-- The members added by the first `region.match` of
`encodeOfflineRegionDefinition`, in the order of the `AddMember` calls. -/
def encodeCommon (styleURL : String) (minZoom maxZoom pixelRatio : Dbl) :
    List (String × JValue) :=
  [("style_url", .string styleURL), ("min_zoom", .double minZoom)]
    ++ (if Dbl.isfinite maxZoom then [("max_zoom", .double maxZoom)] else [])
    ++ [("pixel_ratio", .double pixelRatio)]

/-- The document built by `encodeOfflineRegionDefinition` before it is written. -/
def encodeDocument (L : CodecLibrary) (region : OfflineRegionDefinition) : JValue :=
  match region with
  | .tilePyramid _region =>
    .object (encodeCommon _region.styleURL _region.minZoom _region.maxZoom _region.pixelRatio
      ++ [("bounds", .array [.double _region.bounds.south, .double _region.bounds.west,
                             .double _region.bounds.north, .double _region.bounds.east])])
  | .geometry _region =>
    .object (encodeCommon _region.styleURL _region.minZoom _region.maxZoom _region.pixelRatio
      ++ [("geometry", L.fromGeometry _region.geometry)])

/-- `encodeOfflineRegionDefinition`. -/
def encodeOfflineRegionDefinition (L : CodecLibrary) (region : OfflineRegionDefinition) : String :=
  L.Write (encodeDocument L region)

/-! ## Vocabulary of the statements -/

/-- The zooms `min, min + 1, ..., max` of a range, ascending; empty when `max < min`. -/
def Range.zooms (r : Range) : List Nat := List.range' r.min (r.max + 1 - r.min)

/-- The count run that goes with a cover run: the number of tiles as a
`uint64_t`, after the same calls. -/
def CoverRun.count (run : CoverRun) : CountRun :=
  { result := run.result.length % 2 ^ 64, calls := run.calls }

/-- The names of the members of an object, in order; empty for another value. -/
def JValue.keys : JValue → List String
  | .object ms => ms.map (fun m => m.1)
  | _ => []

/-- The member `name` is present and satisfies `p`. -/
def memberIs (p : JValue → Bool) (name : String) (ms : List (String × JValue)) : Bool :=
  match findMember name ms with
  | some v => p v
  | none => false

/-- The member `bounds` is an array of exactly 4 values that satisfy `p`. -/
def boundsAre (p : JValue → Bool) (ms : List (String × JValue)) : Bool :=
  match findMember "bounds" ms with
  | some (.array [a, b, c, d]) => p a && p b && p c && p d
  | _ => false

/-- The member `max_zoom` is absent, or satisfies `p`. -/
def maxZoomIs (p : JValue → Bool) (ms : List (String × JValue)) : Bool :=
  match findMember "max_zoom" ms with
  | some v => p v
  | none => true

/-- The maximum zoom that a validated object stands for: its `max_zoom`, or
plus infinity when it has none. -/
def maxZoomOf (ms : List (String × JValue)) : Dbl :=
  match findMember "max_zoom" ms with
  | some (.double m) => m
  | _ => .posInf

/-- The members of an object pass the validation of `decodeOfflineRegionDefinition`. -/
def structurallyValid (ms : List (String × JValue)) : Bool :=
  memberIs JValue.IsString "style_url" ms
    && (boundsAre JValue.IsDouble ms || memberIs JValue.IsObject "geometry" ms)
    && memberIs JValue.IsDouble "min_zoom" ms
    && maxZoomIs JValue.IsDouble ms
    && memberIs JValue.IsDouble "pixel_ratio" ms

/-- The library is exact on the definition `d`: the parser reads back the
document that the writer was given, narrowing the pixel ratio to `float` gives
it back (it is a `float`), and the GeoJSON converters read back the geometry
from the object written for it. -/
def CodecLibrary.ExactOn (L : CodecLibrary) (d : OfflineRegionDefinition) : Prop :=
  L.Parse (L.Write (encodeDocument L d)) = { HasParseError := false, root := encodeDocument L d }
    ∧ L.toFloat d.pixelRatio = d.pixelRatio
    ∧ match d with
      | .tilePyramid _ => True
      | .geometry g =>
        (L.fromGeometry g.geometry).IsObject = true
          ∧ L.toGeometry (L.fromGeometry g.geometry) = .ok g.geometry

/-- The two definitions are of the same variant. -/
def OfflineRegionDefinition.sameVariant : OfflineRegionDefinition → OfflineRegionDefinition → Bool
  | .tilePyramid _, .tilePyramid _ => true
  | .geometry _, .geometry _ => true
  | _, _ => false

/-! ## Sample services, for the examples -/

/-- A covering service for the examples: the covering zoom is the floor of a
finite zoom, and every area is covered at zoom `z` by the one tile
`(z, 0, z / 2)`, as the point of the test `Point` is at zooms 0 to 2. -/
def sampleCoverService : CoverService where
  coveringZoomLevel := fun zoom _ _ =>
    match zoom with
    | .fin q => Int.floor q
    | _ => 0
  tileCoverBounds := fun _ z => [⟨0, ⟨z, 0, z / 2⟩⟩]
  tileCoverGeometry := fun _ z => [⟨0, ⟨z, 0, z / 2⟩⟩]
  tileCountBounds := fun _ _ => 1
  tileCountGeometry := fun _ _ => 1

/-- A codec library for the examples: its parser reads the one text `text`
as the document `root` and fails on any other, its writer writes `text`, every
value is a `float`, and a geometry is written as an empty object and read back
as the point `(0, 0)`. -/
def sampleCodecLibrary (text : String) (root : JValue) : CodecLibrary where
  Parse := fun region =>
    if region = text then { HasParseError := false, root := root }
    else { HasParseError := true, root := .null }
  Write := fun _ => text
  toGeometry := fun _ => .ok (.point ⟨.fin 0, .fin 0⟩)
  fromGeometry := fun _ => .object []
  toFloat := fun x => x

/-- The region of the test `Point`, with its point rounded to whole degrees. -/
def samplePoint : OfflineRegionDefinition :=
  .geometry { styleURL := "", geometry := .point ⟨.fin (-122), .fin 37⟩,
              minZoom := .fin 0, maxZoom := .fin 2, pixelRatio := .fin 1 }

/-- The region of the test `TileCoverZoomIntersection`, with its bounds
rounded to whole degrees: `minZoom = maxZoom = 2`. -/
def sampleZoomTwo : OfflineRegionDefinition :=
  .tilePyramid { styleURL := "",
                 bounds := LatLngBounds.hull ⟨.fin 37, .fin (-123)⟩ ⟨.fin 38, .fin (-122)⟩,
                 minZoom := .fin 2, maxZoom := .fin 2, pixelRatio := .fin 1 }

/-- The region of the test `TileCoverEmpty`: the empty bounds, zooms 0 to 20. -/
def sampleEmpty : OfflineTilePyramidRegionDefinition :=
  { styleURL := "", bounds := LatLngBounds.empty, minZoom := .fin 0, maxZoom := .fin 20,
    pixelRatio := .fin 1 }

/-- The text `{"style_url":"x","min_zoom":0,"pixel_ratio":1,"bounds":[0,0,1,1]}`,
whose numbers are integer literals. -/
def integerLiteralText : String :=
  "\x7b\"style_url\":\"x\",\"min_zoom\":0,\"pixel_ratio\":1,\"bounds\":[0,0,1,1]\x7d"

/-- The document that rapidjson parses `integerLiteralText` to: every number
has an integer flag. -/
def integerLiteralDocument : JValue :=
  .object [("style_url", .string "x"), ("min_zoom", .int 0), ("pixel_ratio", .int 1),
           ("bounds", .array [.int 0, .int 0, .int 1, .int 1])]

/-- The text `{"style_url":"x","min_zoom":0.0,"pixel_ratio":1.0,"bounds":[0.0,0.0,1.0,1.0]}`,
whose numbers are written with a fraction. -/
def fractionLiteralText : String :=
  "\x7b\"style_url\":\"x\",\"min_zoom\":0.0,\"pixel_ratio\":1.0,\"bounds\":[0.0,0.0,1.0,1.0]\x7d"

/-- The document that rapidjson parses `fractionLiteralText` to: every number
has the double flag. -/
def fractionLiteralDocument : JValue :=
  .object [("style_url", .string "x"), ("min_zoom", .double (.fin 0)),
           ("pixel_ratio", .double (.fin 1)),
           ("bounds", .array [.double (.fin 0), .double (.fin 0), .double (.fin 1),
                              .double (.fin 1)])]

/-- The text `{"style_url":"x","min_zoom":0,"pixel_ratio":1,"bounds":[0,0,0]}`,
whose bounds have three elements. -/
def threeBoundsText : String :=
  "\x7b\"style_url\":\"x\",\"min_zoom\":0,\"pixel_ratio\":1,\"bounds\":[0,0,0]\x7d"

/-- The document that rapidjson parses `threeBoundsText` to. -/
def threeBoundsDocument : JValue :=
  .object [("style_url", .string "x"), ("min_zoom", .int 0), ("pixel_ratio", .int 1),
           ("bounds", .array [.int 0, .int 0, .int 0])]

/-- The text that the writer produces for `sampleEmpty`. -/
def sampleEmptyText : String :=
  "\x7b\"style_url\":\"\",\"min_zoom\":0.0,\"max_zoom\":20.0,\"pixel_ratio\":1.0,\"bounds\":[90.0,180.0,-90.0,-180.0]\x7d"

/-- The document that `encodeOfflineRegionDefinition` builds for `sampleEmpty`. -/
def sampleEmptyDocument : JValue :=
  .object [("style_url", .string ""), ("min_zoom", .double (.fin 0)),
           ("max_zoom", .double (.fin 20)), ("pixel_ratio", .double (.fin 1)),
           ("bounds", .array [.double (.fin 90), .double (.fin 180), .double (.fin (-90)),
                              .double (.fin (-180))])]

/-- The region of the test `TileCoverTileSize`: the world at zoom 0. -/
def sampleWorld : OfflineTilePyramidRegionDefinition :=
  { styleURL := "", bounds := LatLngBounds.world, minZoom := .fin 0, maxZoom := .fin 0,
    pixelRatio := .fin 1 }

/-- The text that the writer produces for `sampleWorld`. -/
def sampleWorldText : String :=
  "\x7b\"style_url\":\"\",\"min_zoom\":0.0,\"max_zoom\":0.0,\"pixel_ratio\":1.0,\"bounds\":[-90.0,-180.0,90.0,180.0]\x7d"

/-- The document that `encodeOfflineRegionDefinition` builds for `sampleWorld`. -/
def sampleWorldDocument : JValue :=
  .object [("style_url", .string ""), ("min_zoom", .double (.fin 0)),
           ("max_zoom", .double (.fin 0)), ("pixel_ratio", .double (.fin 1)),
           ("bounds", .array [.double (.fin (-90)), .double (.fin (-180)), .double (.fin 90),
                              .double (.fin 180)])]

/-- The world from zoom 0 with no upper zoom. -/
def sampleUnbounded : OfflineTilePyramidRegionDefinition :=
  { styleURL := "", bounds := LatLngBounds.world, minZoom := .fin 0, maxZoom := .posInf,
    pixelRatio := .fin 1 }

/-- The text that the writer produces for `sampleUnbounded`. -/
def sampleUnboundedText : String :=
  "\x7b\"style_url\":\"\",\"min_zoom\":0.0,\"pixel_ratio\":1.0,\"bounds\":[-90.0,-180.0,90.0,180.0]\x7d"

/-- The document that `encodeOfflineRegionDefinition` builds for `sampleUnbounded`. -/
def sampleUnboundedDocument : JValue :=
  .object [("style_url", .string ""), ("min_zoom", .double (.fin 0)),
           ("pixel_ratio", .double (.fin 1)),
           ("bounds", .array [.double (.fin (-90)), .double (.fin (-180)), .double (.fin 90),
                              .double (.fin 180)])]

/-- A codec library for the examples, as `sampleCodecLibrary`, but whose
GeoJSON converter rejects an object that has no member `type`, as
`mapbox::geojson::convert` does ("Geometry must have a type property"). -/
def sampleStrictLibrary (text : String) (root : JValue) : CodecLibrary where
  Parse := (sampleCodecLibrary text root).Parse
  Write := (sampleCodecLibrary text root).Write
  toGeometry := fun v =>
    match v.HasMember "type" with
    | .ok true => .ok (.point ⟨.fin 0, .fin 0⟩)
    | _ => .error .geojson_error
  fromGeometry := (sampleCodecLibrary text root).fromGeometry
  toFloat := (sampleCodecLibrary text root).toFloat

/-- The GeoJSON object `{"type":"Point","coordinates":[0.0,0.0]}`. -/
def pointGeometryObject : JValue :=
  .object [("type", .string "Point"),
           ("coordinates", .array [.double (.fin 0), .double (.fin 0)])]

/-- The text `{"style_url":"x","min_zoom":-1.0,"pixel_ratio":1.0,"geometry":{}}`:
a negative minimum zoom, and a geometry that is an object but no GeoJSON
geometry. -/
def negativeZoomGeometryText : String :=
  "\x7b\"style_url\":\"x\",\"min_zoom\":-1.0,\"pixel_ratio\":1.0,\"geometry\":\x7b\x7d\x7d"

/-- The document that rapidjson parses `negativeZoomGeometryText` to. -/
def negativeZoomGeometryDocument : JValue :=
  .object [("style_url", .string "x"), ("min_zoom", .double (.fin (-1))),
           ("pixel_ratio", .double (.fin 1)), ("geometry", .object [])]

/-- The text
`{"style_url":"x","min_zoom":2.0,"max_zoom":1.0,"pixel_ratio":1.0,"bounds":[0.0,0.0,1.0,1.0]}`:
a maximum zoom below the minimum zoom. -/
def zoomOrderText : String :=
  "\x7b\"style_url\":\"x\",\"min_zoom\":2.0,\"max_zoom\":1.0,\"pixel_ratio\":1.0,\"bounds\":[0.0,0.0,1.0,1.0]\x7d"

/-- The document that rapidjson parses `zoomOrderText` to. -/
def zoomOrderDocument : JValue :=
  .object [("style_url", .string "x"), ("min_zoom", .double (.fin 2)),
           ("max_zoom", .double (.fin 1)), ("pixel_ratio", .double (.fin 1)),
           ("bounds", .array [.double (.fin 0), .double (.fin 0), .double (.fin 1),
                              .double (.fin 1)])]

/-- The text of `fractionLiteralText` with the member
`"geometry":{"type":"Point","coordinates":[0.0,0.0]}` added: valid bounds and a
well-formed geometry in one document. -/
def boundsAndGeometryText : String :=
  "\x7b\"style_url\":\"x\",\"min_zoom\":0.0,\"pixel_ratio\":1.0,\"bounds\":[0.0,0.0,1.0,1.0],\"geometry\":\x7b\"type\":\"Point\",\"coordinates\":[0.0,0.0]\x7d\x7d"

/-- The document that rapidjson parses `boundsAndGeometryText` to. -/
def boundsAndGeometryDocument : JValue :=
  .object [("style_url", .string "x"), ("min_zoom", .double (.fin 0)),
           ("pixel_ratio", .double (.fin 1)),
           ("bounds", .array [.double (.fin 0), .double (.fin 0), .double (.fin 1),
                              .double (.fin 1)]),
           ("geometry", pointGeometryObject)]

/-- The text of `fractionLiteralText` with the two corners of the bounds
exchanged: `"bounds":[1.0,1.0,0.0,0.0]`. -/
def swappedBoundsText : String :=
  "\x7b\"style_url\":\"x\",\"min_zoom\":0.0,\"pixel_ratio\":1.0,\"bounds\":[1.0,1.0,0.0,0.0]\x7d"

/-- The document that rapidjson parses `swappedBoundsText` to. -/
def swappedBoundsDocument : JValue :=
  .object [("style_url", .string "x"), ("min_zoom", .double (.fin 0)),
           ("pixel_ratio", .double (.fin 1)),
           ("bounds", .array [.double (.fin 1), .double (.fin 1), .double (.fin 0),
                              .double (.fin 0)])]

/-- The document with a style URL, a minimum zoom of 0, a pixel ratio of 1, the
well-formed geometry `pointGeometryObject`, and the members `extra` before it:
`extra` holds the member `bounds`, or nothing. -/
def geometryDocumentWith (extra : List (String × JValue)) : JValue :=
  .object ([("style_url", .string "x"), ("min_zoom", .double (.fin 0)),
            ("pixel_ratio", .double (.fin 1))] ++ extra ++ [("geometry", pointGeometryObject)])

/-- The text
`{"style_url":"x","min_zoom":0.0,"pixel_ratio":1.0,"bounds":[0.0,0.0,0.0],"geometry":{"type":"Point","coordinates":[0.0,0.0]}}`:
a well-formed geometry, and bounds of three elements. -/
def shortBoundsGeometryText : String :=
  "\x7b\"style_url\":\"x\",\"min_zoom\":0.0,\"pixel_ratio\":1.0,\"bounds\":[0.0,0.0,0.0],\"geometry\":\x7b\"type\":\"Point\",\"coordinates\":[0.0,0.0]\x7d\x7d"

/-- The document that rapidjson parses `shortBoundsGeometryText` to. -/
def shortBoundsGeometryDocument : JValue :=
  geometryDocumentWith
    [("bounds", .array [.double (.fin 0), .double (.fin 0), .double (.fin 0)])]

/-- The text
`{"style_url":"x","min_zoom":0.0,"pixel_ratio":1.0,"geometry":{"type":"Point","coordinates":[0.0,0.0]}}`:
the well-formed geometry alone. -/
def geometryOnlyText : String :=
  "\x7b\"style_url\":\"x\",\"min_zoom\":0.0,\"pixel_ratio\":1.0,\"geometry\":\x7b\"type\":\"Point\",\"coordinates\":[0.0,0.0]\x7d\x7d"

/-! ## The loops -/

theorem tileCoverLoop_exit (cover : Nat → List UnwrappedTileID) (max fuel z : Nat) (run : CoverRun)
    (h : max < z) : tileCoverLoop cover max (fuel + 1) z run = some run := by
  simp [tileCoverLoop, Nat.not_le.mpr h]

theorem tileCoverLoop_run (cover : Nat → List UnwrappedTileID) (max : Nat) (hmax : max < 255) :
    ∀ (n fuel z : Nat) (run : CoverRun), z + n = max + 1 → n < fuel →
      tileCoverLoop cover max fuel z run =
        some { result := run.result ++
                 (List.range' z n).flatMap (fun z => (cover z).map (fun tile => tile.canonical))
               calls := run.calls ++ List.range' z n } := by
  intro n
  induction n with
  | zero =>
    intro fuel z run hz hfuel
    obtain ⟨k, rfl⟩ : ∃ k, fuel = k + 1 := ⟨fuel - 1, by omega⟩
    rw [tileCoverLoop_exit cover max k z run (by omega)]
    simp
  | succ n ih =>
    intro fuel z run hz hfuel
    obtain ⟨k, rfl⟩ : ∃ k, fuel = k + 1 := ⟨fuel - 1, by omega⟩
    have hle : z ≤ max := by omega
    have hmod : (z + 1) % 256 = z + 1 := Nat.mod_eq_of_lt (by omega)
    rw [tileCoverLoop, if_pos hle, hmod, ih k (z + 1) _ (by omega) (by omega)]
    simp [List.range'_succ, List.append_assoc]

/-- The loop of `_tileCover`, entered at `min` with nothing done, for a range with `max < 255`. -/
theorem tileCoverLoop_range (cover : Nat → List UnwrappedTileID) (r : Range) (hmax : r.max < 255)
    (fuel : Nat) (hfuel : r.max + 1 - r.min < fuel) :
    tileCoverLoop cover r.max fuel r.min { result := [], calls := [] } =
      some { result := r.zooms.flatMap (fun z => (cover z).map (fun tile => tile.canonical))
             calls := r.zooms } := by
  unfold Range.zooms
  by_cases h : r.min ≤ r.max + 1
  · rw [tileCoverLoop_run cover r.max hmax (r.max + 1 - r.min) fuel r.min _ (by omega) hfuel]
    simp
  · obtain ⟨k, rfl⟩ : ∃ k, fuel = k + 1 := ⟨fuel - 1, by omega⟩
    rw [tileCoverLoop_exit cover r.max k r.min _ (by omega)]
    have : r.max + 1 - r.min = 0 := by omega
    simp [this]

/-- The two loops advance together: the sum is the number of tiles, modulo `2 ^ 64`. -/
theorem tileCountLoop_eq_count (cover : Nat → List UnwrappedTileID) (count : Nat → Nat)
    (hservice : ∀ z, count z = (cover z).length) (max : Nat) :
    ∀ (fuel z : Nat) (cr : CoverRun) (nr : CountRun), nr = cr.count →
      tileCountLoop count max fuel z nr = (tileCoverLoop cover max fuel z cr).map CoverRun.count := by
  intro fuel
  induction fuel with
  | zero => intro z cr nr _; simp [tileCountLoop, tileCoverLoop]
  | succ k ih =>
    intro z cr nr h
    by_cases hle : z ≤ max
    · rw [tileCountLoop, tileCoverLoop, if_pos hle, if_pos hle]
      apply ih
      subst h
      simp [CoverRun.count, hservice, Nat.add_mod]
    · rw [tileCountLoop, tileCoverLoop, if_neg hle, if_neg hle]
      simp [h]

theorem coveringZoomRange_ok (czl : Dbl → SourceType → Nat → Int) (minZoom maxZoom : Dbl)
    (type : SourceType) (tileSize : Nat) (zoomRange r : Range)
    (h : coveringZoomRange czl minZoom maxZoom type tileSize zoomRange = .ok r) :
    r.min < 255 ∧ r.max < 255 := by
  unfold coveringZoomRange at h
  simp only at h
  split at h
  · rename_i hc
    injection h with h
    subst h
    simp only
    omega
  · cases h

theorem _tileCount_eq_count {G : Type} (fuel : Nat) (czl : Dbl → SourceType → Nat → Int)
    (cover : G → Nat → List UnwrappedTileID) (count : G → Nat → Nat) (minZoom maxZoom : Dbl)
    (geometry : G) (type : SourceType) (tileSize : Nat) (zoomRange : Range)
    (hservice : ∀ z, count geometry z = (cover geometry z).length) :
    _tileCount fuel czl count minZoom maxZoom geometry type tileSize zoomRange =
      (_tileCover fuel czl cover minZoom maxZoom geometry type tileSize zoomRange).map
        (Option.map CoverRun.count) := by
  unfold _tileCount _tileCover
  cases coveringZoomRange czl minZoom maxZoom type tileSize zoomRange with
  | error e => rfl
  | ok r =>
    simp only [Except.map]
    rw [tileCountLoop_eq_count (cover geometry) (count geometry) hservice r.max fuel r.min
      { result := [], calls := [] } { result := 0, calls := [] } (by simp [CoverRun.count])]

theorem _tileCover_ok {G : Type} (fuel : Nat) (czl : Dbl → SourceType → Nat → Int)
    (cover : G → Nat → List UnwrappedTileID) (minZoom maxZoom : Dbl)
    (geometry : G) (type : SourceType) (tileSize : Nat) (zoomRange r : Range)
    (hclamp : coveringZoomRange czl minZoom maxZoom type tileSize zoomRange = .ok r)
    (hfuel : r.max + 1 - r.min < fuel) :
    _tileCover fuel czl cover minZoom maxZoom geometry type tileSize zoomRange =
      .ok (some { result := r.zooms.flatMap
                    (fun z => (cover geometry z).map (fun tile => tile.canonical))
                  calls := r.zooms }) := by
  unfold _tileCover
  rw [hclamp]
  simp only
  rw [tileCoverLoop_range (cover geometry) r
    (coveringZoomRange_ok czl minZoom maxZoom type tileSize zoomRange r hclamp).2 fuel hfuel]

theorem tileCover_ok (fuel : Nat) (s : CoverService) (d : OfflineRegionDefinition)
    (type : SourceType) (tileSize : Nat) (zoomRange r : Range)
    (hclamp : d.clampedZoomRange s type tileSize zoomRange = .ok r)
    (hfuel : r.max + 1 - r.min < fuel) :
    d.tileCover fuel s type tileSize zoomRange =
      .ok (some { result := r.zooms.flatMap
                    (fun z => (d.areaCover s z).map (fun tile => tile.canonical))
                  calls := r.zooms }) := by
  cases d with
  | tilePyramid p =>
    exact _tileCover_ok fuel s.coveringZoomLevel s.tileCoverBounds p.minZoom p.maxZoom p.bounds
      type tileSize zoomRange r hclamp hfuel
  | geometry g =>
    exact _tileCover_ok fuel s.coveringZoomLevel s.tileCoverGeometry g.minZoom g.maxZoom
      g.geometry type tileSize zoomRange r hclamp hfuel

theorem tileCount_eq_count (fuel : Nat) (s : CoverService) (d : OfflineRegionDefinition)
    (type : SourceType) (tileSize : Nat) (zoomRange : Range)
    (hservice : ∀ z, d.areaCount s z = (d.areaCover s z).length) :
    d.tileCount fuel s type tileSize zoomRange =
      (d.tileCover fuel s type tileSize zoomRange).map (Option.map CoverRun.count) := by
  cases d with
  | tilePyramid p =>
    exact _tileCount_eq_count fuel s.coveringZoomLevel s.tileCoverBounds s.tileCountBounds
      p.minZoom p.maxZoom p.bounds type tileSize zoomRange hservice
  | geometry g =>
    exact _tileCount_eq_count fuel s.coveringZoomLevel s.tileCoverGeometry s.tileCountGeometry
      g.minZoom g.maxZoom g.geometry type tileSize zoomRange hservice

/-! ## The validation of a document -/

theorem hasValidBounds_object (ms : List (String × JValue)) :
    hasValidBounds (.object ms) = .ok (boundsAre JValue.IsDouble ms) := by
  unfold hasValidBounds boundsAre
  cases h : findMember "bounds" ms with
  | none => simp [JValue.HasMember, h, andThen]
  | some v =>
    cases v with
    | array xs =>
      rcases xs with _ | ⟨a, _ | ⟨b, _ | ⟨c, _ | ⟨d, _ | ⟨e, xs⟩⟩⟩⟩⟩ <;>
        simp [JValue.HasMember, JValue.member, h, andThen, Except.map, JValue.IsArray, bind,
          Except.bind, JValue.Size, JValue.element]
      cases a.IsDouble <;> cases b.IsDouble <;> cases c.IsDouble <;> cases d.IsDouble <;> simp
    | _ => simp [JValue.HasMember, JValue.member, h, andThen, Except.map, JValue.IsArray]

theorem hasValidGeometry_object (ms : List (String × JValue)) :
    hasValidGeometry (.object ms) = .ok (memberIs JValue.IsObject "geometry" ms) := by
  unfold hasValidGeometry memberIs
  cases h : findMember "geometry" ms with
  | none => simp [JValue.HasMember, h, andThen]
  | some v => simp [JValue.HasMember, JValue.member, h, andThen, Except.map]

theorem orElse_true (x : Except Failure Bool) : orElse (.ok true) x = .ok true := rfl
theorem orElse_false (x : Except Failure Bool) : orElse (.ok false) x = x := rfl
theorem orElse_ok (a b : Bool) : orElse (.ok a) (.ok b) = .ok (a || b) := by
  cases a <;> rfl
theorem andThen_true (x : Except Failure Bool) : andThen (.ok true) x = x := rfl
theorem andThen_false (x : Except Failure Bool) : andThen (.ok false) x = .ok false := rfl
theorem andThen_ok (a b : Bool) : andThen (.ok a) (.ok b) = .ok (a && b) := by
  cases a <;> rfl
theorem notE_ok (a : Bool) : notE (.ok a) = .ok (!a) := rfl

theorem isMalformed_object (pe : Bool) (ms : List (String × JValue)) :
    isMalformed { HasParseError := pe, root := .object ms } = .ok (pe || !structurallyValid ms) := by
  unfold isMalformed structurallyValid memberIs maxZoomIs
  simp only [hasValidBounds_object, hasValidGeometry_object]
  cases pe
  · rcases hs : findMember "style_url" ms with _ | vs <;>
    rcases hm : findMember "min_zoom" ms with _ | vm <;>
    rcases hx : findMember "max_zoom" ms with _ | vx <;>
    rcases hp : findMember "pixel_ratio" ms with _ | vp <;>
    simp [hs, hm, hx, hp, JValue.HasMember, JValue.member, Except.map, orElse_true,
      orElse_false, orElse_ok, andThen_true, andThen_false, andThen_ok, notE_ok] <;>
    simp only [memberIs, Bool.or_assoc]
  · rfl

theorem isMalformed_parseError (v : JValue) :
    isMalformed { HasParseError := true, root := v } = .ok true := rfl

theorem isMalformed_not_object (v : JValue) (h : v.IsObject = false) :
    isMalformed { HasParseError := false, root := v } = .error .assertion := by
  cases v <;> first | rfl | cases h

theorem decodeDocument_parseError (L : CodecLibrary) (v : JValue) :
    decodeDocument L { HasParseError := true, root := v } = .error malformed := rfl

theorem decodeDocument_not_object (L : CodecLibrary) (v : JValue) (h : v.IsObject = false) :
    decodeDocument L { HasParseError := false, root := v } = .error .assertion := by
  unfold decodeDocument
  rw [isMalformed_not_object v h]

theorem decodeDocument_invalid (L : CodecLibrary) (ms : List (String × JValue))
    (h : structurallyValid ms = false) :
    decodeDocument L { HasParseError := false, root := .object ms } = .error malformed := by
  unfold decodeDocument
  rw [isMalformed_object, h]
  rfl

theorem decodeDocument_valid (L : CodecLibrary) (ms : List (String × JValue))
    (h : structurallyValid ms = true) :
    decodeDocument L { HasParseError := false, root := .object ms } =
      decodeValidated L (.object ms) := by
  unfold decodeDocument
  rw [isMalformed_object, h]
  rfl

/-- What the members of a valid object are. -/
theorem structurallyValid_members (ms : List (String × JValue))
    (h : structurallyValid ms = true) :
    ∃ (s : String) (a p : Dbl),
      findMember "style_url" ms = some (.string s)
      ∧ findMember "min_zoom" ms = some (.double a)
      ∧ findMember "pixel_ratio" ms = some (.double p)
      ∧ (findMember "max_zoom" ms = none ∨ ∃ m, findMember "max_zoom" ms = some (.double m))
      ∧ (boundsAre JValue.IsDouble ms = true ∨ memberIs JValue.IsObject "geometry" ms = true) := by
  unfold structurallyValid at h
  simp only [Bool.and_eq_true, Bool.or_eq_true] at h
  obtain ⟨⟨⟨⟨hs, hbg⟩, hm⟩, hx⟩, hp⟩ := h
  unfold memberIs at hs hm hp
  unfold maxZoomIs at hx
  rcases hs' : findMember "style_url" ms with _ | vs
  · simp [hs'] at hs
  rcases hm' : findMember "min_zoom" ms with _ | vm
  · simp [hm'] at hm
  rcases hp' : findMember "pixel_ratio" ms with _ | vp
  · simp [hp'] at hp
  rw [hs'] at hs; rw [hm'] at hm; rw [hp'] at hp
  cases vs <;> try (simp [JValue.IsString] at hs)
  cases vm <;> try (simp [JValue.IsDouble] at hm)
  cases vp <;> try (simp [JValue.IsDouble] at hp)
  refine ⟨_, _, _, rfl, rfl, rfl, ?_, hbg⟩
  rcases hx' : findMember "max_zoom" ms with _ | vx
  · exact Or.inl rfl
  · rw [hx'] at hx
    cases vx <;> try (simp [JValue.IsDouble] at hx)
    exact Or.inr ⟨_, rfl⟩

/-! ## The construction from a validated document -/

theorem bind_eq_ok {α β : Type} (x : Except Failure α) (f : α → Except Failure β) (b : β)
    (h : (x >>= f) = .ok b) : ∃ a, x = .ok a ∧ f a = .ok b := by
  cases x with
  | error e => cases h
  | ok a => exact ⟨a, rfl, h⟩

theorem construct_pyramid_ok (s : String) (b : LatLngBounds) (a m p : Dbl)
    (d : OfflineTilePyramidRegionDefinition)
    (h : OfflineTilePyramidRegionDefinition.construct s b a m p = .ok d) :
    d = { styleURL := s, bounds := b, minZoom := a, maxZoom := m, pixelRatio := p } := by
  unfold OfflineTilePyramidRegionDefinition.construct at h
  split at h
  · cases h
  · injection h with h; exact h.symm

theorem construct_geometry_ok (s : String) (g : Geometry) (a m p : Dbl)
    (d : OfflineGeometryRegionDefinition)
    (h : OfflineGeometryRegionDefinition.construct s g a m p = .ok d) :
    d = { styleURL := s, geometry := g, minZoom := a, maxZoom := m, pixelRatio := p } := by
  unfold OfflineGeometryRegionDefinition.construct at h
  split at h
  · cases h
  · injection h with h; exact h.symm

/-- The common properties read from a valid object, and the two branches. -/
theorem decodeValidated_object (L : CodecLibrary) (ms : List (String × JValue)) (s : String)
    (a p : Dbl) (hs : findMember "style_url" ms = some (.string s))
    (hm : findMember "min_zoom" ms = some (.double a))
    (hp : findMember "pixel_ratio" ms = some (.double p))
    (hx : findMember "max_zoom" ms = none ∨ ∃ m, findMember "max_zoom" ms = some (.double m)) :
    decodeValidated L (.object ms) =
      match findMember "bounds" ms with
      | some bounds => (do
        let b0 ← bounds.element 0 >>= JValue.GetDouble
        let b1 ← bounds.element 1 >>= JValue.GetDouble
        let b2 ← bounds.element 2 >>= JValue.GetDouble
        let b3 ← bounds.element 3 >>= JValue.GetDouble
        let d ← OfflineTilePyramidRegionDefinition.construct s
          (LatLngBounds.hull ⟨b0, b1⟩ ⟨b2, b3⟩) a (maxZoomOf ms) (L.toFloat p)
        pure (.tilePyramid d))
      | none => (do
        let geometry ← JValue.member (.object ms) "geometry" >>= JValue.GetObject >>= L.toGeometry
        let d ← OfflineGeometryRegionDefinition.construct s geometry a (maxZoomOf ms) (L.toFloat p)
        pure (.geometry d)) := by
  unfold decodeValidated maxZoomOf
  rcases hx with hx | ⟨m, hx⟩ <;>
  rcases hb : findMember "bounds" ms with _ | bounds <;>
  simp [JValue.member, JValue.HasMember, hs, hm, hp, hx, hb, JValue.GetString, JValue.GetDouble,
    bind, Except.bind, pure, Except.pure]

/-! ## The condition of the constructors -/

/-- The condition of the two constructors, as a proposition on the values. -/
theorem invalidZoomOrRatio_eq_false (a m p : Dbl) :
    invalidZoomOrRatio a m p = false ↔
      ∃ a' p' : ℚ, a = .fin a' ∧ 0 ≤ a' ∧ p = .fin p' ∧ 0 ≤ p'
        ∧ (m = .posInf ∨ ∃ m' : ℚ, m = .fin m' ∧ a' ≤ m') := by
  constructor
  · intro h
    cases a <;> cases m <;> cases p <;>
      simp [invalidZoomOrRatio, Dbl.lt, Dbl.isfinite, Dbl.isnan, Dbl.zero] at h ⊢
    all_goals first | exact h | exact ⟨h.1.1.1, h.2, h.1.2⟩
  · rintro ⟨a', p', rfl, ha, rfl, hp, hm | ⟨m', rfl, hm⟩⟩
    · subst hm
      simp [invalidZoomOrRatio, Dbl.lt, Dbl.isfinite, Dbl.isnan, Dbl.zero, ha, hp]
    · simp [invalidZoomOrRatio, Dbl.lt, Dbl.isfinite, Dbl.isnan, Dbl.zero, ha, hp, hm,
        le_trans ha hm]

/-- The condition of the two constructors, as the disjunction of the source. -/
theorem invalidZoomOrRatio_eq_true (a m p : Dbl) :
    invalidZoomOrRatio a m p = true ↔
      (Dbl.lt a Dbl.zero = true ∨ Dbl.lt m Dbl.zero = true ∨ Dbl.lt m a = true
        ∨ Dbl.lt p Dbl.zero = true ∨ Dbl.isfinite a = false ∨ Dbl.isnan m = true
        ∨ Dbl.isfinite p = false) := by
  simp [invalidZoomOrRatio, or_assoc]

/-! ## The claims on the constructors -/

/-- C3. For both variants, the constructor fails with `std::invalid_argument`
if and only if `minZoom < 0`, or `maxZoom < 0`, or `maxZoom < minZoom`, or
`pixelRatio < 0`, or `minZoom` is not finite, or `maxZoom` is NaN, or
`pixelRatio` is not finite; otherwise it returns the definition with the fields
given.  It returns exactly when `minZoom` and `pixelRatio` are finite and not
negative and `maxZoom` is plus infinity or a finite value not below `minZoom`;
in particular `maxZoom = +infinity` is accepted. -/
theorem construct_fails_iff :
    (∀ (s : String) (b : LatLngBounds) (a m p : Dbl),
      (OfflineTilePyramidRegionDefinition.construct s b a m p = .error invalidDefinition ↔
        (Dbl.lt a Dbl.zero = true ∨ Dbl.lt m Dbl.zero = true ∨ Dbl.lt m a = true
          ∨ Dbl.lt p Dbl.zero = true ∨ Dbl.isfinite a = false ∨ Dbl.isnan m = true
          ∨ Dbl.isfinite p = false))
      ∧ (OfflineTilePyramidRegionDefinition.construct s b a m p
            = .ok { styleURL := s, bounds := b, minZoom := a, maxZoom := m, pixelRatio := p } ↔
          ∃ a' p' : ℚ, a = .fin a' ∧ 0 ≤ a' ∧ p = .fin p' ∧ 0 ≤ p'
            ∧ (m = .posInf ∨ ∃ m' : ℚ, m = .fin m' ∧ a' ≤ m'))
      ∧ (OfflineTilePyramidRegionDefinition.construct s b a m p = .error invalidDefinition
          ∨ OfflineTilePyramidRegionDefinition.construct s b a m p
            = .ok { styleURL := s, bounds := b, minZoom := a, maxZoom := m, pixelRatio := p }))
    ∧ (∀ (s : String) (g : Geometry) (a m p : Dbl),
      (OfflineGeometryRegionDefinition.construct s g a m p = .error invalidDefinition ↔
        (Dbl.lt a Dbl.zero = true ∨ Dbl.lt m Dbl.zero = true ∨ Dbl.lt m a = true
          ∨ Dbl.lt p Dbl.zero = true ∨ Dbl.isfinite a = false ∨ Dbl.isnan m = true
          ∨ Dbl.isfinite p = false))
      ∧ (OfflineGeometryRegionDefinition.construct s g a m p
            = .ok { styleURL := s, geometry := g, minZoom := a, maxZoom := m, pixelRatio := p } ↔
          ∃ a' p' : ℚ, a = .fin a' ∧ 0 ≤ a' ∧ p = .fin p' ∧ 0 ≤ p'
            ∧ (m = .posInf ∨ ∃ m' : ℚ, m = .fin m' ∧ a' ≤ m'))
      ∧ (OfflineGeometryRegionDefinition.construct s g a m p = .error invalidDefinition
          ∨ OfflineGeometryRegionDefinition.construct s g a m p
            = .ok { styleURL := s, geometry := g, minZoom := a, maxZoom := m, pixelRatio := p }))
    ∧ (∀ (s : String) (b : LatLngBounds) (g : Geometry) (z r : Nat),
      OfflineTilePyramidRegionDefinition.construct s b (.fin z) .posInf (.fin r)
          = .ok { styleURL := s, bounds := b, minZoom := .fin z, maxZoom := .posInf,
                  pixelRatio := .fin r }
      ∧ OfflineGeometryRegionDefinition.construct s g (.fin z) .posInf (.fin r)
          = .ok { styleURL := s, geometry := g, minZoom := .fin z, maxZoom := .posInf,
                  pixelRatio := .fin r }) := by
  refine ⟨fun s b a m p => ⟨?_, ?_, ?_⟩, fun s g a m p => ⟨?_, ?_, ?_⟩, fun s b g z r => ⟨?_, ?_⟩⟩
  · rw [← invalidZoomOrRatio_eq_true]
    unfold OfflineTilePyramidRegionDefinition.construct
    cases invalidZoomOrRatio a m p <;> simp
  · rw [← invalidZoomOrRatio_eq_false]
    unfold OfflineTilePyramidRegionDefinition.construct
    cases invalidZoomOrRatio a m p <;> simp
  · unfold OfflineTilePyramidRegionDefinition.construct
    cases invalidZoomOrRatio a m p <;> simp
  · rw [← invalidZoomOrRatio_eq_true]
    unfold OfflineGeometryRegionDefinition.construct
    cases invalidZoomOrRatio a m p <;> simp
  · rw [← invalidZoomOrRatio_eq_false]
    unfold OfflineGeometryRegionDefinition.construct
    cases invalidZoomOrRatio a m p <;> simp
  · unfold OfflineGeometryRegionDefinition.construct
    cases invalidZoomOrRatio a m p <;> simp
  · have h : invalidZoomOrRatio (.fin z) .posInf (.fin r) = false :=
      (invalidZoomOrRatio_eq_false _ _ _).2
        ⟨z, r, rfl, Nat.cast_nonneg z, rfl, Nat.cast_nonneg r, Or.inl rfl⟩
    simp [OfflineTilePyramidRegionDefinition.construct, h]
  · have h : invalidZoomOrRatio (.fin z) .posInf (.fin r) = false :=
      (invalidZoomOrRatio_eq_false _ _ _).2
        ⟨z, r, rfl, Nat.cast_nonneg z, rfl, Nat.cast_nonneg r, Or.inl rfl⟩
    simp [OfflineGeometryRegionDefinition.construct, h]

/-! ## The claims on the tile enumeration -/

/-- C1. When the count of the service at every zoom is the length of its cover,
`tileCount` is the length of `tileCover` for the same arguments, as a
`uint64_t`: the two outcomes agree for every bound on the loop, and when the
clamp passes its assertions both return, `tileCount` with the number of tiles
modulo `2 ^ 64`, which is the number of tiles when that fits 64 bits. -/
theorem tileCount_eq_length_tileCover (s : CoverService) (d : OfflineRegionDefinition)
    (type : SourceType) (tileSize : Nat) (zoomRange : Range)
    (hservice : ∀ z, d.areaCount s z = (d.areaCover s z).length) :
    (∀ fuel, d.tileCount fuel s type tileSize zoomRange =
        (d.tileCover fuel s type tileSize zoomRange).map (Option.map CoverRun.count))
    ∧ (∀ r, d.clampedZoomRange s type tileSize zoomRange = .ok r →
        ∃ cover : CoverRun,
          d.tileCover 256 s type tileSize zoomRange = .ok (some cover)
          ∧ d.tileCount 256 s type tileSize zoomRange =
              .ok (some { result := cover.result.length % 2 ^ 64, calls := cover.calls })
          ∧ (cover.result.length < 2 ^ 64 →
              d.tileCount 256 s type tileSize zoomRange =
                .ok (some { result := cover.result.length, calls := cover.calls }))) := by
  refine ⟨fun fuel => tileCount_eq_count fuel s d type tileSize zoomRange hservice, ?_⟩
  intro r hclamp
  have hb := coveringZoomRange_ok s.coveringZoomLevel d.minZoom d.maxZoom type tileSize
    zoomRange r hclamp
  have hcover := tileCover_ok 256 s d type tileSize zoomRange r hclamp (by omega)
  refine ⟨_, hcover, ?_, ?_⟩
  · rw [tileCount_eq_count 256 s d type tileSize zoomRange hservice, hcover]
    rfl
  · intro hlt
    rw [tileCount_eq_count 256 s d type tileSize zoomRange hservice, hcover]
    simp only [Except.map, Option.map, CoverRun.count]
    rw [Nat.mod_eq_of_lt hlt]

/-- C1, on the region of the test `Point` over the valid zooms 0 to 22: three
tiles, and a count of three. -/
theorem tileCount_eq_length_tileCover_witness :
    (∀ z, samplePoint.areaCount sampleCoverService z
        = (samplePoint.areaCover sampleCoverService z).length)
    ∧ samplePoint.tileCover 256 sampleCoverService .Vector 512 ⟨0, 22⟩
        = .ok (some { result := [⟨0, 0, 0⟩, ⟨1, 0, 0⟩, ⟨2, 0, 1⟩], calls := [0, 1, 2] })
    ∧ samplePoint.tileCount 256 sampleCoverService .Vector 512 ⟨0, 22⟩
        = (samplePoint.tileCover 256 sampleCoverService .Vector 512 ⟨0, 22⟩).map
            (Option.map CoverRun.count) :=
  ⟨fun _ => rfl, by decide,
    (tileCount_eq_length_tileCover sampleCoverService samplePoint .Vector 512 ⟨0, 22⟩
      (fun _ => rfl)).1 256⟩

/-- C4. When the clamped zoom range has `min ≤ max` (its `max` is below 255,
as the clamp asserts), `tileCover` returns, as soon as the loop may evaluate its
condition `max - min + 2` times, the concatenation for `z = min, ..., max`
ascending of the canonical ids of `TileCover(area, z)` in the order of the
service, where the area is the bounds or the geometry of the definition; the
service is called at exactly these zooms, in this order. -/
theorem tileCover_eq_concat_per_zoom (s : CoverService) (d : OfflineRegionDefinition)
    (type : SourceType) (tileSize : Nat) (zoomRange r : Range)
    (hclamp : d.clampedZoomRange s type tileSize zoomRange = .ok r)
    (hle : r.min ≤ r.max) (fuel : Nat) (hfuel : r.max - r.min + 1 < fuel) :
    r.max < 255
    ∧ d.tileCover fuel s type tileSize zoomRange =
      .ok (some
        { result := (List.range' r.min (r.max - r.min + 1)).flatMap
            (fun z => (d.areaCover s z).map (fun tile => tile.canonical))
          calls := List.range' r.min (r.max - r.min + 1) }) := by
  have hb := coveringZoomRange_ok s.coveringZoomLevel d.minZoom d.maxZoom type tileSize
    zoomRange r hclamp
  refine ⟨hb.2, ?_⟩
  rw [tileCover_ok fuel s d type tileSize zoomRange r hclamp (by omega)]
  have h : r.max + 1 - r.min = r.max - r.min + 1 := by omega
  simp only [Range.zooms, h]

/-- C4, on the region of the test `Point`: zooms 0, 1, 2 in this order. -/
theorem tileCover_eq_concat_per_zoom_witness :
    samplePoint.clampedZoomRange sampleCoverService .Vector 512 ⟨0, 22⟩ = .ok ⟨0, 2⟩
    ∧ samplePoint.tileCover 4 sampleCoverService .Vector 512 ⟨0, 22⟩ =
      .ok (some
        { result := (List.range' 0 3).flatMap
            (fun z => (samplePoint.areaCover sampleCoverService z).map
              (fun tile => tile.canonical))
          calls := List.range' 0 3 }) :=
  ⟨by decide,
    (tileCover_eq_concat_per_zoom sampleCoverService samplePoint .Vector 512 ⟨0, 22⟩ ⟨0, 2⟩
      (by decide) (by decide) 4 (by decide)).2⟩

/-- C5. When the clamped zoom range has `min > max`, `tileCover` returns the
empty sequence and `tileCount` returns 0, at the first evaluation of the loop
condition, with no call of the service and no failure. -/
theorem tileCover_tileCount_empty_of_max_lt_min (s : CoverService)
    (d : OfflineRegionDefinition) (type : SourceType) (tileSize : Nat) (zoomRange r : Range)
    (hclamp : d.clampedZoomRange s type tileSize zoomRange = .ok r) (hlt : r.max < r.min)
    (fuel : Nat) :
    d.tileCover (fuel + 1) s type tileSize zoomRange = .ok (some { result := [], calls := [] })
    ∧ d.tileCount (fuel + 1) s type tileSize zoomRange
        = .ok (some { result := 0, calls := [] }) := by
  have hcond : ¬ r.min ≤ r.max := by omega
  cases d with
  | tilePyramid p =>
    have hc : coveringZoomRange s.coveringZoomLevel p.minZoom p.maxZoom type tileSize zoomRange
        = .ok r := hclamp
    simp [OfflineRegionDefinition.tileCover, OfflineRegionDefinition.tileCount,
      OfflineTilePyramidRegionDefinition.tileCover, OfflineTilePyramidRegionDefinition.tileCount,
      _tileCover, _tileCount, hc, tileCoverLoop, tileCountLoop, hcond]
  | geometry g =>
    have hc : coveringZoomRange s.coveringZoomLevel g.minZoom g.maxZoom type tileSize zoomRange
        = .ok r := hclamp
    simp [OfflineRegionDefinition.tileCover, OfflineRegionDefinition.tileCount,
      OfflineGeometryRegionDefinition.tileCover, OfflineGeometryRegionDefinition.tileCount,
      _tileCover, _tileCount, hc, tileCoverLoop, tileCountLoop, hcond]

/-- C5, on the region of the test `TileCoverZoomIntersection`, zooms 2 to 2,
against the valid zooms 3 to 22: the clamped range is `{3, 2}`. -/
theorem tileCover_tileCount_empty_of_max_lt_min_witness :
    sampleZoomTwo.clampedZoomRange sampleCoverService .Vector 512 ⟨3, 22⟩ = .ok ⟨3, 2⟩
    ∧ sampleZoomTwo.tileCover 1 sampleCoverService .Vector 512 ⟨3, 22⟩
        = .ok (some { result := [], calls := [] })
    ∧ sampleZoomTwo.tileCount 1 sampleCoverService .Vector 512 ⟨3, 22⟩
        = .ok (some { result := 0, calls := [] }) :=
  ⟨by decide,
    tileCover_tileCount_empty_of_max_lt_min sampleCoverService sampleZoomTwo .Vector 512
      ⟨3, 22⟩ ⟨3, 2⟩ (by decide) (by decide) 0⟩

/-! ## Encoding, then decoding -/

/-- The members of the encoding of a tile-pyramid definition. -/
theorem findMember_encode_tilePyramid (L : CodecLibrary) (d : OfflineTilePyramidRegionDefinition) :
    ∃ ms, encodeDocument L (.tilePyramid d) = .object ms
      ∧ findMember "style_url" ms = some (.string d.styleURL)
      ∧ findMember "min_zoom" ms = some (.double d.minZoom)
      ∧ findMember "max_zoom" ms
          = (if Dbl.isfinite d.maxZoom then some (.double d.maxZoom) else none)
      ∧ findMember "pixel_ratio" ms = some (.double d.pixelRatio)
      ∧ findMember "bounds" ms
          = some (.array [.double d.bounds.south, .double d.bounds.west,
                          .double d.bounds.north, .double d.bounds.east])
      ∧ findMember "geometry" ms = none
      ∧ ms.map (fun m => m.1)
          = ["style_url", "min_zoom"] ++ (if Dbl.isfinite d.maxZoom then ["max_zoom"] else [])
              ++ ["pixel_ratio", "bounds"] := by
  refine ⟨_, rfl, ?_⟩
  cases h : Dbl.isfinite d.maxZoom <;> simp [encodeCommon, findMember, h]

/-- The members of the encoding of a geometry definition. -/
theorem findMember_encode_geometry (L : CodecLibrary) (d : OfflineGeometryRegionDefinition) :
    ∃ ms, encodeDocument L (.geometry d) = .object ms
      ∧ findMember "style_url" ms = some (.string d.styleURL)
      ∧ findMember "min_zoom" ms = some (.double d.minZoom)
      ∧ findMember "max_zoom" ms
          = (if Dbl.isfinite d.maxZoom then some (.double d.maxZoom) else none)
      ∧ findMember "pixel_ratio" ms = some (.double d.pixelRatio)
      ∧ findMember "bounds" ms = none
      ∧ findMember "geometry" ms = some (L.fromGeometry d.geometry)
      ∧ ms.map (fun m => m.1)
          = ["style_url", "min_zoom"] ++ (if Dbl.isfinite d.maxZoom then ["max_zoom"] else [])
              ++ ["pixel_ratio", "geometry"] := by
  refine ⟨_, rfl, ?_⟩
  cases h : Dbl.isfinite d.maxZoom <;> simp [encodeCommon, findMember, h]

theorem hull_of_le (s w n e : Dbl) (hsn : Dbl.le s n = true) (hwe : Dbl.le w e = true) :
    LatLngBounds.hull ⟨s, w⟩ ⟨n, e⟩ = { sw := ⟨s, w⟩, ne := ⟨n, e⟩ } := by
  have key : ∀ x y : Dbl, Dbl.le x y = true → Dbl.min y x = x ∧ Dbl.max y x = y := by
    intro x y h
    cases x <;> cases y <;> simp [Dbl.le, Dbl.lt, Dbl.min, Dbl.max] at h ⊢
    rename_i a b
    refine ⟨fun hba => le_antisymm hba h, fun hlt => absurd h (not_le.mpr hlt)⟩
  simp [LatLngBounds.hull, key s n hsn, key w e hwe]

/-- A valid document with valid bounds decodes to what the constructor of the
tile pyramid returns. -/
theorem decodeDocument_of_bounds (L : CodecLibrary) (ms : List (String × JValue)) (s : String)
    (a p b0 b1 b2 b3 : Dbl) (hs : findMember "style_url" ms = some (.string s))
    (hm : findMember "min_zoom" ms = some (.double a))
    (hp : findMember "pixel_ratio" ms = some (.double p))
    (hx : findMember "max_zoom" ms = none ∨ ∃ m, findMember "max_zoom" ms = some (.double m))
    (hb : findMember "bounds" ms
      = some (.array [.double b0, .double b1, .double b2, .double b3])) :
    decodeDocument L { HasParseError := false, root := .object ms } =
      Except.map OfflineRegionDefinition.tilePyramid
        (OfflineTilePyramidRegionDefinition.construct s
          (LatLngBounds.hull ⟨b0, b1⟩ ⟨b2, b3⟩) a (maxZoomOf ms) (L.toFloat p)) := by
  have hv : structurallyValid ms = true := by
    rcases hx with hx | ⟨m, hx⟩ <;>
      simp [structurallyValid, memberIs, boundsAre, maxZoomIs, hs, hm, hp, hx, hb,
        JValue.IsString, JValue.IsDouble]
  rw [decodeDocument_valid L ms hv, decodeValidated_object L ms s a p hs hm hp hx, hb]
  simp only [JValue.element, List.get?, JValue.GetDouble, bind, Except.bind]
  cases OfflineTilePyramidRegionDefinition.construct s
    (LatLngBounds.hull ⟨b0, b1⟩ ⟨b2, b3⟩) a (maxZoomOf ms) (L.toFloat p) <;> rfl

/-- A valid document with no bounds decodes to what the GeoJSON converter and
then the constructor of the geometry definition return. -/
theorem decodeDocument_of_geometry (L : CodecLibrary) (ms gs : List (String × JValue))
    (s : String) (a p : Dbl) (hs : findMember "style_url" ms = some (.string s))
    (hm : findMember "min_zoom" ms = some (.double a))
    (hp : findMember "pixel_ratio" ms = some (.double p))
    (hx : findMember "max_zoom" ms = none ∨ ∃ m, findMember "max_zoom" ms = some (.double m))
    (hb : findMember "bounds" ms = none)
    (hg : findMember "geometry" ms = some (.object gs)) :
    decodeDocument L { HasParseError := false, root := .object ms } =
      match L.toGeometry (.object gs) with
      | .error e => .error e
      | .ok g =>
        Except.map OfflineRegionDefinition.geometry
          (OfflineGeometryRegionDefinition.construct s g a (maxZoomOf ms) (L.toFloat p)) := by
  have hv : structurallyValid ms = true := by
    rcases hx with hx | ⟨m, hx⟩ <;>
      simp [structurallyValid, memberIs, boundsAre, maxZoomIs, hs, hm, hp, hx, hb, hg,
        JValue.IsString, JValue.IsDouble, JValue.IsObject]
  rw [decodeDocument_valid L ms hv, decodeValidated_object L ms s a p hs hm hp hx, hb]
  simp only [JValue.member, hg, JValue.GetObject, bind, Except.bind]
  cases L.toGeometry (.object gs) with
  | error e => rfl
  | ok g =>
    simp only
    cases OfflineGeometryRegionDefinition.construct s g a (maxZoomOf ms) (L.toFloat p) <;> rfl

/-- A definition that its constructor returns has a maximum zoom that is
finite or plus infinity. -/
theorem maxZoom_of_constructed (d : OfflineRegionDefinition) (hd : d.Constructed) :
    invalidZoomOrRatio d.minZoom d.maxZoom d.pixelRatio = false
    ∧ (if Dbl.isfinite d.maxZoom then d.maxZoom else .posInf) = d.maxZoom := by
  have h : invalidZoomOrRatio d.minZoom d.maxZoom d.pixelRatio = false := by
    cases d with
    | tilePyramid p =>
      simp only [OfflineRegionDefinition.Constructed,
        OfflineTilePyramidRegionDefinition.construct] at hd
      cases hc : invalidZoomOrRatio p.minZoom p.maxZoom p.pixelRatio
      · exact hc
      · simp [hc] at hd
    | geometry g =>
      simp only [OfflineRegionDefinition.Constructed,
        OfflineGeometryRegionDefinition.construct] at hd
      cases hc : invalidZoomOrRatio g.minZoom g.maxZoom g.pixelRatio
      · exact hc
      · simp [hc] at hd
  refine ⟨h, ?_⟩
  obtain ⟨a', p', _, _, _, _, hm | ⟨m', hm, _⟩⟩ := (invalidZoomOrRatio_eq_false _ _ _).1 h <;>
    simp [hm, Dbl.isfinite]

/-- Decoding the encoding of a tile-pyramid definition that its constructor
returns, with a library that is exact on it: the same definition, with the hull
of its two corners for bounds. -/
theorem decode_encode_tilePyramid_hull (L : CodecLibrary)
    (d : OfflineTilePyramidRegionDefinition)
    (hd : OfflineRegionDefinition.Constructed (.tilePyramid d))
    (hL : L.ExactOn (.tilePyramid d)) :
    decodeOfflineRegionDefinition L (encodeOfflineRegionDefinition L (.tilePyramid d)) =
      .ok (.tilePyramid { d with bounds := LatLngBounds.hull d.bounds.sw d.bounds.ne }) := by
  obtain ⟨hparse, hfloat, _⟩ := hL
  obtain ⟨ms, hms, hs, hm, hx, hp, hb, _, _⟩ := findMember_encode_tilePyramid L d
  obtain ⟨hvalid, hmax⟩ := maxZoom_of_constructed (.tilePyramid d) hd
  have hx' : findMember "max_zoom" ms = none
      ∨ ∃ m, findMember "max_zoom" ms = some (.double m) := by
    rw [hx]
    cases Dbl.isfinite d.maxZoom
    · exact Or.inl rfl
    · exact Or.inr ⟨_, rfl⟩
  have hmz : maxZoomOf ms = d.maxZoom := by
    have hmax' : (if Dbl.isfinite d.maxZoom = true then d.maxZoom else .posInf) = d.maxZoom :=
      hmax
    simp only [maxZoomOf, hx]
    cases hf : Dbl.isfinite d.maxZoom
    · simpa [hf] using hmax'
    · simp
  unfold decodeOfflineRegionDefinition encodeOfflineRegionDefinition
  rw [hparse, hms, decodeDocument_of_bounds L ms _ _ _ _ _ _ _ hs hm hp hx' hb, hmz]
  have hfloat' : L.toFloat d.pixelRatio = d.pixelRatio := hfloat
  have hvalid' : invalidZoomOrRatio d.minZoom d.maxZoom d.pixelRatio = false := hvalid
  simp [OfflineTilePyramidRegionDefinition.construct, hfloat', hvalid', Except.map,
    LatLngBounds.south, LatLngBounds.west, LatLngBounds.north, LatLngBounds.east]

/-- Decoding the encoding of a geometry definition that its constructor
returns, with a library that is exact on it: the same definition. -/
theorem decode_encode_geometry (L : CodecLibrary) (d : OfflineGeometryRegionDefinition)
    (hd : OfflineRegionDefinition.Constructed (.geometry d))
    (hL : L.ExactOn (.geometry d)) :
    decodeOfflineRegionDefinition L (encodeOfflineRegionDefinition L (.geometry d)) =
      .ok (.geometry d) := by
  obtain ⟨hparse, hfloat, hobj, hgeo⟩ := hL
  obtain ⟨ms, hms, hs, hm, hx, hp, hb, hg, _⟩ := findMember_encode_geometry L d
  obtain ⟨hvalid, hmax⟩ := maxZoom_of_constructed (.geometry d) hd
  have hx' : findMember "max_zoom" ms = none
      ∨ ∃ m, findMember "max_zoom" ms = some (.double m) := by
    rw [hx]
    cases Dbl.isfinite d.maxZoom
    · exact Or.inl rfl
    · exact Or.inr ⟨_, rfl⟩
  have hmz : maxZoomOf ms = d.maxZoom := by
    have hmax' : (if Dbl.isfinite d.maxZoom = true then d.maxZoom else .posInf) = d.maxZoom :=
      hmax
    simp only [maxZoomOf, hx]
    cases hf : Dbl.isfinite d.maxZoom
    · simpa [hf] using hmax'
    · simp
  obtain ⟨gs, hgs⟩ : ∃ gs, L.fromGeometry d.geometry = .object gs := by
    cases hv : L.fromGeometry d.geometry <;> simp [hv, JValue.IsObject] at hobj
    exact ⟨_, rfl⟩
  unfold decodeOfflineRegionDefinition encodeOfflineRegionDefinition
  rw [hparse, hms, decodeDocument_of_geometry L ms gs _ _ _ hs hm hp hx' hb (hgs ▸ hg), hmz,
    ← hgs, hgeo]
  have hfloat' : L.toFloat d.pixelRatio = d.pixelRatio := hfloat
  have hvalid' : invalidZoomOrRatio d.minZoom d.maxZoom d.pixelRatio = false := hvalid
  simp [OfflineGeometryRegionDefinition.construct, hfloat', hvalid', Except.map]

/-! ## What decoding accepts and rejects -/

/-- What a successful decoding tells about the document and the definition. -/
theorem decodeDocument_ok (L : CodecLibrary) (doc : Document) (d : OfflineRegionDefinition)
    (h : decodeDocument L doc = .ok d) :
    ∃ (ms : List (String × JValue)) (s : String) (a p : Dbl),
      doc = { HasParseError := false, root := .object ms }
      ∧ structurallyValid ms = true
      ∧ findMember "style_url" ms = some (.string s)
      ∧ findMember "min_zoom" ms = some (.double a)
      ∧ findMember "pixel_ratio" ms = some (.double p)
      ∧ d.styleURL = s ∧ d.minZoom = a ∧ d.maxZoom = maxZoomOf ms
      ∧ d.pixelRatio = L.toFloat p := by
  obtain ⟨pe, root⟩ := doc
  cases pe
  swap
  · rw [decodeDocument_parseError] at h
    cases h
  cases hobj : root.IsObject
  · rw [decodeDocument_not_object L root hobj] at h
    cases h
  obtain ⟨ms, rfl⟩ : ∃ ms, root = .object ms := by
    cases root <;> simp [JValue.IsObject] at hobj
    exact ⟨_, rfl⟩
  cases hv : structurallyValid ms
  · rw [decodeDocument_invalid L ms hv] at h
    cases h
  obtain ⟨s, a, p, hs, hm, hp, hx, _⟩ := structurallyValid_members ms hv
  refine ⟨ms, s, a, p, rfl, hv, hs, hm, hp, ?_⟩
  rw [decodeDocument_valid L ms hv, decodeValidated_object L ms s a p hs hm hp hx] at h
  split at h
  · obtain ⟨b0, _, h⟩ := bind_eq_ok _ _ _ h
    obtain ⟨b1, _, h⟩ := bind_eq_ok _ _ _ h
    obtain ⟨b2, _, h⟩ := bind_eq_ok _ _ _ h
    obtain ⟨b3, _, h⟩ := bind_eq_ok _ _ _ h
    obtain ⟨d0, hc, h⟩ := bind_eq_ok _ _ _ h
    have hd0 := construct_pyramid_ok _ _ _ _ _ _ hc
    injection h with h
    subst h
    subst hd0
    exact ⟨rfl, rfl, rfl, rfl⟩
  · obtain ⟨g, _, h⟩ := bind_eq_ok _ _ _ h
    obtain ⟨d0, hc, h⟩ := bind_eq_ok _ _ _ h
    have hd0 := construct_geometry_ok _ _ _ _ _ _ hc
    injection h with h
    subst h
    subst hd0
    exact ⟨rfl, rfl, rfl, rfl⟩

/-- A document that is not malformed by the reading of the claims, for an
object: every condition on the members, with "number" read as `IsDouble`. -/
theorem decodeDocument_malformed_of_object (L : CodecLibrary) (ms : List (String × JValue))
    (h : memberIs JValue.IsString "style_url" ms = false
      ∨ memberIs JValue.IsNumber "min_zoom" ms = false
      ∨ memberIs JValue.IsNumber "pixel_ratio" ms = false
      ∨ maxZoomIs JValue.IsNumber ms = false
      ∨ (boundsAre JValue.IsNumber ms = false ∧ memberIs JValue.IsObject "geometry" ms = false)) :
    decodeDocument L { HasParseError := false, root := .object ms } = .error malformed := by
  apply decodeDocument_invalid
  have hnum : ∀ v : JValue, v.IsNumber = false → v.IsDouble = false := by
    intro v hv
    cases v <;> simp [JValue.IsNumber, JValue.IsDouble] at hv ⊢
  have hmem : ∀ name, memberIs JValue.IsNumber name ms = false →
      memberIs JValue.IsDouble name ms = false := by
    intro name hn
    unfold memberIs at hn ⊢
    cases hf : findMember name ms with
    | none => rfl
    | some v => rw [hf] at hn; exact hnum v hn
  have hmax : maxZoomIs JValue.IsNumber ms = false → maxZoomIs JValue.IsDouble ms = false := by
    intro hn
    unfold maxZoomIs at hn ⊢
    cases hf : findMember "max_zoom" ms with
    | none => rw [hf] at hn; cases hn
    | some v => rw [hf] at hn; exact hnum v hn
  have hbounds : boundsAre JValue.IsNumber ms = false → boundsAre JValue.IsDouble ms = false := by
    intro hn
    unfold boundsAre at hn ⊢
    cases hf : findMember "bounds" ms with
    | none => rfl
    | some v =>
      rw [hf] at hn
      cases v with
      | array xs =>
        rcases xs with _ | ⟨a, _ | ⟨b, _ | ⟨c, _ | ⟨d, _ | ⟨e, xs⟩⟩⟩⟩⟩ <;> try rfl
        simp only [Bool.and_eq_false_iff] at hn ⊢
        rcases hn with ((hn | hn) | hn) | hn
        · exact Or.inl (Or.inl (Or.inl (hnum _ hn)))
        · exact Or.inl (Or.inl (Or.inr (hnum _ hn)))
        · exact Or.inl (Or.inr (hnum _ hn))
        · exact Or.inr (hnum _ hn)
      | _ => rfl
  unfold structurallyValid
  rcases h with h | h | h | h | ⟨h1, h2⟩
  · simp [h]
  · simp [hmem _ h]
  · simp [hmem _ h]
  · simp [hmax h]
  · simp [hbounds h1, h2]

/-! ## The claims on the codec -/

/-- C2 (as amended). For every tile-pyramid definition that its constructor
returns and whose bounds have `south <= north` and `west <= east`, decoding its
encoding returns the same definition: the same style URL, bounds, minimum and
maximum zoom (plus infinity included) and pixel ratio.  The library is exact on
the definition: the parser reads back the document written, and the pixel ratio
is a `float`. -/
theorem decode_encode_tilePyramid (L : CodecLibrary) (d : OfflineTilePyramidRegionDefinition)
    (hd : OfflineRegionDefinition.Constructed (.tilePyramid d))
    (hL : L.ExactOn (.tilePyramid d))
    (hsn : Dbl.le d.bounds.south d.bounds.north = true)
    (hwe : Dbl.le d.bounds.west d.bounds.east = true) :
    decodeOfflineRegionDefinition L (encodeOfflineRegionDefinition L (.tilePyramid d)) =
      .ok (.tilePyramid d) := by
  rw [decode_encode_tilePyramid_hull L d hd hL]
  have h := hull_of_le d.bounds.south d.bounds.west d.bounds.north d.bounds.east hsn hwe
  have hb : LatLngBounds.hull d.bounds.sw d.bounds.ne = d.bounds := h
  rw [hb]

/-- C2 (as amended), on the region of the test `TileCoverTileSize`. -/
theorem decode_encode_tilePyramid_witness :
    OfflineRegionDefinition.Constructed (.tilePyramid sampleWorld)
    ∧ Dbl.le sampleWorld.bounds.south sampleWorld.bounds.north = true
    ∧ Dbl.le sampleWorld.bounds.west sampleWorld.bounds.east = true
    ∧ decodeOfflineRegionDefinition (sampleCodecLibrary sampleWorldText sampleWorldDocument)
        (encodeOfflineRegionDefinition (sampleCodecLibrary sampleWorldText sampleWorldDocument)
          (.tilePyramid sampleWorld))
      = .ok (.tilePyramid sampleWorld) :=
  ⟨by rfl, by decide, by decide,
    decode_encode_tilePyramid (sampleCodecLibrary sampleWorldText sampleWorldDocument)
      sampleWorld (by rfl) ⟨by rfl, by rfl, trivial⟩ (by decide) (by decide)⟩

/-- C2 fails on the region of the test `TileCoverEmpty`, which the constructor
returns: its empty bounds `[90, 180, -90, -180]` decode to the whole world. -/
theorem decode_encode_empty_bounds_counterexample :
    OfflineTilePyramidRegionDefinition.construct "" LatLngBounds.empty (.fin 0) (.fin 20)
        (.fin 1) = .ok sampleEmpty
    ∧ encodeDocument (sampleCodecLibrary sampleEmptyText sampleEmptyDocument)
        (.tilePyramid sampleEmpty) = sampleEmptyDocument
    ∧ decodeOfflineRegionDefinition (sampleCodecLibrary sampleEmptyText sampleEmptyDocument)
        (encodeOfflineRegionDefinition (sampleCodecLibrary sampleEmptyText sampleEmptyDocument)
          (.tilePyramid sampleEmpty))
      = .ok (.tilePyramid { sampleEmpty with bounds := LatLngBounds.world })
    ∧ LatLngBounds.world ≠ sampleEmpty.bounds :=
  ⟨by decide, by rfl, by decide, by decide⟩

/-- C6. The document that `encodeOfflineRegionDefinition` writes has the key
`max_zoom` if and only if the maximum zoom of the definition is finite, with
that maximum zoom for value; it always has `style_url`, `min_zoom` and
`pixel_ratio`, with the values of the definition. -/
theorem encode_common_members (L : CodecLibrary) (d : OfflineRegionDefinition) :
    encodeOfflineRegionDefinition L d = L.Write (encodeDocument L d)
    ∧ (encodeDocument L d).HasMember "max_zoom" = .ok (Dbl.isfinite d.maxZoom)
    ∧ (encodeDocument L d).member "max_zoom"
        = (if Dbl.isfinite d.maxZoom then .ok (.double d.maxZoom) else .error .assertion)
    ∧ (encodeDocument L d).member "style_url" = .ok (.string d.styleURL)
    ∧ (encodeDocument L d).member "min_zoom" = .ok (.double d.minZoom)
    ∧ (encodeDocument L d).member "pixel_ratio" = .ok (.double d.pixelRatio) := by
  refine ⟨rfl, ?_⟩
  cases d with
  | tilePyramid p =>
    obtain ⟨ms, hms, hs, hm, hx, hp, _⟩ := findMember_encode_tilePyramid L p
    rw [hms]
    simp only [JValue.HasMember, JValue.member, hs, hm, hx, hp,
      OfflineRegionDefinition.maxZoom, OfflineRegionDefinition.styleURL,
      OfflineRegionDefinition.minZoom, OfflineRegionDefinition.pixelRatio]
    cases Dbl.isfinite p.maxZoom <;> simp
  | geometry g =>
    obtain ⟨ms, hms, hs, hm, hx, hp, _⟩ := findMember_encode_geometry L g
    rw [hms]
    simp only [JValue.HasMember, JValue.member, hs, hm, hx, hp,
      OfflineRegionDefinition.maxZoom, OfflineRegionDefinition.styleURL,
      OfflineRegionDefinition.minZoom, OfflineRegionDefinition.pixelRatio]
    cases Dbl.isfinite g.maxZoom <;> simp

/-- C8. The document that `encodeOfflineRegionDefinition` writes has exactly
one member named `bounds` or `geometry`: for a tile-pyramid definition it is
`bounds`, the array `[south, west, north, east]`, and there is no `geometry`;
for a geometry definition it is `geometry`, the object of the GeoJSON
converter, and there is no `bounds`. -/
theorem encode_bounds_xor_geometry (L : CodecLibrary) :
    (∀ p : OfflineTilePyramidRegionDefinition,
      (encodeDocument L (.tilePyramid p)).member "bounds"
          = .ok (.array [.double p.bounds.south, .double p.bounds.west,
                         .double p.bounds.north, .double p.bounds.east])
      ∧ (encodeDocument L (.tilePyramid p)).HasMember "geometry" = .ok false
      ∧ (encodeDocument L (.tilePyramid p)).keys.filter
          (fun k => k == "bounds" || k == "geometry") = ["bounds"])
    ∧ (∀ g : OfflineGeometryRegionDefinition,
      (encodeDocument L (.geometry g)).member "geometry" = .ok (L.fromGeometry g.geometry)
      ∧ (encodeDocument L (.geometry g)).HasMember "bounds" = .ok false
      ∧ (encodeDocument L (.geometry g)).keys.filter
          (fun k => k == "bounds" || k == "geometry") = ["geometry"]) := by
  constructor
  · intro p
    obtain ⟨ms, hms, _, _, _, _, hb, hg, hk⟩ := findMember_encode_tilePyramid L p
    rw [hms]
    simp only [JValue.HasMember, JValue.member, JValue.keys, hb, hg, hk]
    cases Dbl.isfinite p.maxZoom <;> simp
  · intro g
    obtain ⟨ms, hms, _, _, _, _, hb, hg, hk⟩ := findMember_encode_geometry L g
    rw [hms]
    simp only [JValue.HasMember, JValue.member, JValue.keys, hb, hg, hk]
    cases Dbl.isfinite g.maxZoom <;> simp

/-- C7. When `decodeOfflineRegionDefinition` returns a definition, its maximum
zoom is plus infinity when the document has no `max_zoom`, and the value of
`max_zoom` when it has one.  So a definition that its constructor returns with
a maximum zoom of plus infinity is encoded with no `max_zoom`, and decoding
that encoding returns a definition whose maximum zoom is plus infinity. -/
theorem decode_maxZoom (L : CodecLibrary) :
    (∀ (region : String) (d : OfflineRegionDefinition),
      decodeOfflineRegionDefinition L region = .ok d →
        ((L.Parse region).root.HasMember "max_zoom" = .ok false ∧ d.maxZoom = .posInf)
        ∨ ((L.Parse region).root.HasMember "max_zoom" = .ok true
            ∧ (L.Parse region).root.member "max_zoom" = .ok (.double d.maxZoom)))
    ∧ (∀ d : OfflineRegionDefinition, d.Constructed → L.ExactOn d → d.maxZoom = .posInf →
        (encodeDocument L d).HasMember "max_zoom" = .ok false
        ∧ ∃ d0, decodeOfflineRegionDefinition L (encodeOfflineRegionDefinition L d) = .ok d0
            ∧ d0.maxZoom = .posInf) := by
  constructor
  · intro region d h
    obtain ⟨ms, s, a, p, hdoc, hv, _, _, _, _, _, hmax, _⟩ :=
      decodeDocument_ok L (L.Parse region) d h
    obtain ⟨_, _, _, _, _, _, hx, _⟩ := structurallyValid_members ms hv
    rw [hdoc, hmax]
    rcases hx with hx | ⟨m, hx⟩
    · exact Or.inl (by simp [JValue.HasMember, maxZoomOf, hx])
    · exact Or.inr (by simp [JValue.HasMember, JValue.member, maxZoomOf, hx])
  · intro d hd hL hinf
    refine ⟨?_, ?_⟩
    · cases d with
      | tilePyramid p =>
        obtain ⟨ms, hms, _, _, hx, _⟩ := findMember_encode_tilePyramid L p
        have hp : p.maxZoom = .posInf := hinf
        rw [hms]
        simp [JValue.HasMember, hx, hp, Dbl.isfinite]
      | geometry g =>
        obtain ⟨ms, hms, _, _, hx, _⟩ := findMember_encode_geometry L g
        have hg : g.maxZoom = .posInf := hinf
        rw [hms]
        simp [JValue.HasMember, hx, hg, Dbl.isfinite]
    · cases d with
      | tilePyramid p =>
        exact ⟨_, decode_encode_tilePyramid_hull L p hd hL, hinf⟩
      | geometry g =>
        exact ⟨_, decode_encode_geometry L g hd hL, hinf⟩

/-- C7, on the world with no upper zoom: its encoding has no `max_zoom`, and
decodes to a maximum zoom of plus infinity. -/
theorem decode_maxZoom_witness :
    OfflineRegionDefinition.Constructed (.tilePyramid sampleUnbounded)
    ∧ (encodeDocument (sampleCodecLibrary sampleUnboundedText sampleUnboundedDocument)
        (.tilePyramid sampleUnbounded)).HasMember "max_zoom" = .ok false
    ∧ ∃ d0, decodeOfflineRegionDefinition
          (sampleCodecLibrary sampleUnboundedText sampleUnboundedDocument)
          (encodeOfflineRegionDefinition
            (sampleCodecLibrary sampleUnboundedText sampleUnboundedDocument)
            (.tilePyramid sampleUnbounded)) = .ok d0
        ∧ d0.maxZoom = .posInf :=
  ⟨by rfl,
    (decode_maxZoom (sampleCodecLibrary sampleUnboundedText sampleUnboundedDocument)).2
      (.tilePyramid sampleUnbounded) (by rfl) ⟨by rfl, by rfl, trivial⟩ (by rfl)⟩

/-- C9, at the text `[]`: it parses, to a value that is not an object, so it
has no `style_url`; `doc.HasMember("style_url")` fails the assertion
`IsObject()` of rapidjson, and no `std::runtime_error` is thrown.  On a parse
error, and on an object (`decodeDocument_malformed_of_object`, and the text
with three bounds here), the error is the one of the claim. -/
theorem decode_array_root_not_malformed :
    decodeOfflineRegionDefinition (sampleCodecLibrary "[]" (.array [])) "[]"
      = .error .assertion
    ∧ decodeOfflineRegionDefinition (sampleCodecLibrary "[]" (.array [])) "[]"
      ≠ .error malformed
    ∧ decodeOfflineRegionDefinition (sampleCodecLibrary threeBoundsText threeBoundsDocument)
        threeBoundsText = .error malformed
    ∧ decodeOfflineRegionDefinition (sampleCodecLibrary "[]" (.array [])) "["
      = .error malformed :=
  ⟨by decide, by decide, by decide, by decide⟩

/-- C10 (as amended). `decodeOfflineRegionDefinition` accepts for `min_zoom`,
`max_zoom`, `pixel_ratio` and the four entries of `bounds` the numbers that the
parser stored as doubles: such a document decodes to what the constructor of
the tile pyramid returns, and the document of the example, written with
fractions, to the definition with `minZoom` 0, `maxZoom` plus infinity and
`pixelRatio` 1.  A `min_zoom`, `max_zoom` or `pixel_ratio` stored as an integer
fails `IsDouble()`, and the document is rejected as malformed; so is the
example written with integer literals. -/
theorem decode_accepts_doubles (L : CodecLibrary) (region : String) :
    (∀ (ms : List (String × JValue)) (s : String) (a p b0 b1 b2 b3 : Dbl),
      L.Parse region = { HasParseError := false, root := .object ms } →
      findMember "style_url" ms = some (.string s) →
      findMember "min_zoom" ms = some (.double a) →
      findMember "pixel_ratio" ms = some (.double p) →
      (findMember "max_zoom" ms = none ∨ ∃ m, findMember "max_zoom" ms = some (.double m)) →
      findMember "bounds" ms = some (.array [.double b0, .double b1, .double b2, .double b3]) →
      decodeOfflineRegionDefinition L region =
        Except.map OfflineRegionDefinition.tilePyramid
          (OfflineTilePyramidRegionDefinition.construct s
            (LatLngBounds.hull ⟨b0, b1⟩ ⟨b2, b3⟩) a (maxZoomOf ms) (L.toFloat p)))
    ∧ (L.Parse region = { HasParseError := false, root := fractionLiteralDocument } →
        L.toFloat (.fin 1) = .fin 1 →
        decodeOfflineRegionDefinition L region =
          .ok (.tilePyramid
            { styleURL := "x", bounds := { sw := ⟨.fin 0, .fin 0⟩, ne := ⟨.fin 1, .fin 1⟩ },
              minZoom := .fin 0, maxZoom := .posInf, pixelRatio := .fin 1 }))
    ∧ (∀ (ms : List (String × JValue)) (i : Int),
      L.Parse region = { HasParseError := false, root := .object ms } →
      (findMember "min_zoom" ms = some (.int i) ∨ findMember "max_zoom" ms = some (.int i)
        ∨ findMember "pixel_ratio" ms = some (.int i)) →
      decodeOfflineRegionDefinition L region = .error malformed)
    ∧ (L.Parse region = { HasParseError := false, root := integerLiteralDocument } →
        decodeOfflineRegionDefinition L region = .error malformed) := by
  refine ⟨?_, ?_, ?_, ?_⟩
  · intro ms s a p b0 b1 b2 b3 hparse hs hm hp hx hb
    unfold decodeOfflineRegionDefinition
    rw [hparse]
    exact decodeDocument_of_bounds L ms s a p b0 b1 b2 b3 hs hm hp hx hb
  · intro hparse hfloat
    unfold decodeOfflineRegionDefinition
    rw [hparse]
    unfold fractionLiteralDocument
    rw [decodeDocument_of_bounds L _ "x" (.fin 0) (.fin 1) (.fin 0) (.fin 0) (.fin 1) (.fin 1)
      (by simp [findMember]) (by simp [findMember]) (by simp [findMember])
      (Or.inl (by simp [findMember])) (by simp [findMember]), hfloat]
    decide
  · intro ms i hparse h
    unfold decodeOfflineRegionDefinition
    rw [hparse]
    apply decodeDocument_invalid
    unfold structurallyValid
    rcases h with h | h | h
    · simp [memberIs, h, JValue.IsDouble]
    · simp [maxZoomIs, h, JValue.IsDouble]
    · simp [memberIs, h, JValue.IsDouble]
  · intro hparse
    unfold decodeOfflineRegionDefinition
    rw [hparse]
    rfl

/-- C10 (as amended), on the two texts of the example. -/
theorem decode_accepts_doubles_witness :
    decodeOfflineRegionDefinition (sampleCodecLibrary fractionLiteralText fractionLiteralDocument)
        fractionLiteralText =
      .ok (.tilePyramid
        { styleURL := "x", bounds := { sw := ⟨.fin 0, .fin 0⟩, ne := ⟨.fin 1, .fin 1⟩ },
          minZoom := .fin 0, maxZoom := .posInf, pixelRatio := .fin 1 }) :=
  (decode_accepts_doubles (sampleCodecLibrary fractionLiteralText fractionLiteralDocument)
    fractionLiteralText).2.1 (by rfl) (by rfl)

/-- C10 fails on the example of the claim: the numbers of
`{"style_url":"x","min_zoom":0,"pixel_ratio":1,"bounds":[0,0,1,1]}` are integer
literals, which rapidjson stores with an integer flag; `IsDouble()` is false for
them and the document is rejected as malformed. -/
theorem decode_integer_literals_counterexample :
    decodeOfflineRegionDefinition
        (sampleCodecLibrary integerLiteralText integerLiteralDocument) integerLiteralText
      = .error malformed
    ∧ (integerLiteralDocument.member "min_zoom").map JValue.IsNumber = .ok true
    ∧ (integerLiteralDocument.member "min_zoom").map JValue.IsDouble = .ok false :=
  ⟨by decide, by decide, by decide⟩

/-! ## More on the loops and the clamp -/

/-- With too few evaluations of its condition, the loop of `_tileCover` has not ended. -/
theorem tileCoverLoop_none (cover : Nat → List UnwrappedTileID) (max : Nat) (hmax : max < 255) :
    ∀ (fuel n z : Nat) (run : CoverRun), z + n = max + 1 → fuel ≤ n →
      tileCoverLoop cover max fuel z run = none := by
  intro fuel
  induction fuel with
  | zero => intro n z run _ _; rfl
  | succ k ih =>
    intro n z run hz hfuel
    have hle : z ≤ max := by omega
    have hmod : (z + 1) % 256 = z + 1 := Nat.mod_eq_of_lt (by omega)
    rw [tileCoverLoop, if_pos hle, hmod]
    exact ih (n - 1) (z + 1) _ (by omega) (by omega)

/-- With `max = 255` the condition `z <= max` holds for every `uint8_t`: the
loop of `_tileCover` never ends. -/
theorem tileCoverLoop_wrap (cover : Nat → List UnwrappedTileID) :
    ∀ (fuel z : Nat) (run : CoverRun), z < 256 → tileCoverLoop cover 255 fuel z run = none := by
  intro fuel
  induction fuel with
  | zero => intro z run _; rfl
  | succ k ih =>
    intro z run hz
    rw [tileCoverLoop, if_pos (by omega)]
    exact ih _ _ (Nat.mod_lt _ (by decide))

/-- With `max = 255` the loop of `_tileCount` never ends. -/
theorem tileCountLoop_wrap (count : Nat → Nat) :
    ∀ (fuel z : Nat) (run : CountRun), z < 256 → tileCountLoop count 255 fuel z run = none := by
  intro fuel
  induction fuel with
  | zero => intro z run _; rfl
  | succ k ih =>
    intro z run hz
    rw [tileCountLoop, if_pos (by omega)]
    exact ih _ _ (Nat.mod_lt _ (by decide))

theorem tileCountLoop_exit (count : Nat → Nat) (max fuel z : Nat) (run : CountRun)
    (h : max < z) : tileCountLoop count max (fuel + 1) z run = some run := by
  simp [tileCountLoop, Nat.not_le.mpr h]

/-- The calls of the loop of `_tileCount`, for `max < 255`. -/
theorem tileCountLoop_run (count : Nat → Nat) (max : Nat) (hmax : max < 255) :
    ∀ (n fuel z : Nat) (run : CountRun), z + n = max + 1 → n < fuel →
      ∃ result, tileCountLoop count max fuel z run =
        some { result := result, calls := run.calls ++ List.range' z n } := by
  intro n
  induction n with
  | zero =>
    intro fuel z run hz hfuel
    obtain ⟨k, rfl⟩ : ∃ k, fuel = k + 1 := ⟨fuel - 1, by omega⟩
    rw [tileCountLoop_exit count max k z run (by omega)]
    exact ⟨run.result, by simp⟩
  | succ n ih =>
    intro fuel z run hz hfuel
    obtain ⟨k, rfl⟩ : ∃ k, fuel = k + 1 := ⟨fuel - 1, by omega⟩
    have hle : z ≤ max := by omega
    have hmod : (z + 1) % 256 = z + 1 := Nat.mod_eq_of_lt (by omega)
    rw [tileCountLoop, if_pos hle, hmod]
    obtain ⟨result, h⟩ := ih k (z + 1) { result := (run.result + count z) % 2 ^ 64
                                         calls := run.calls ++ [z] } (by omega) (by omega)
    exact ⟨result, by rw [h]; simp [List.range'_succ, List.append_assoc]⟩

/-- The loop of `_tileCount`, entered at `min` with nothing done, for a range with `max < 255`. -/
theorem tileCountLoop_range (count : Nat → Nat) (r : Range) (hmax : r.max < 255)
    (fuel : Nat) (hfuel : r.max + 1 - r.min < fuel) :
    ∃ result, tileCountLoop count r.max fuel r.min { result := 0, calls := [] } =
      some { result := result, calls := r.zooms } := by
  unfold Range.zooms
  by_cases h : r.min ≤ r.max + 1
  · obtain ⟨result, hr⟩ := tileCountLoop_run count r.max hmax (r.max + 1 - r.min) fuel r.min
      { result := 0, calls := [] } (by omega) hfuel
    exact ⟨result, by rw [hr]; simp⟩
  · obtain ⟨k, rfl⟩ : ∃ k, fuel = k + 1 := ⟨fuel - 1, by omega⟩
    rw [tileCountLoop_exit count r.max k r.min _ (by omega)]
    have : r.max + 1 - r.min = 0 := by omega
    exact ⟨0, by simp [this]⟩

/-- A concatenation of blocks indexed by an ascending list, where every element
of the block of `z` has key `z`, has ascending keys. -/
theorem pairwise_flatMap_key {α : Type} (key : α → Nat) (f : Nat → List α)
    (hkey : ∀ z, ∀ t ∈ f z, key t = z) :
    ∀ l : List Nat, l.Pairwise (fun a b => a ≤ b) →
      (l.flatMap f).Pairwise (fun a b => key a ≤ key b) := by
  intro l
  induction l with
  | nil => intro _; simp
  | cons a l ih =>
    intro h
    rw [List.pairwise_cons] at h
    rw [List.flatMap_cons, List.pairwise_append]
    refine ⟨?_, ih h.2, ?_⟩
    · rw [List.pairwise_iff_forall_sublist]
      intro x y hxy
      have hx : x ∈ f a := hxy.subset (by simp)
      have hy : y ∈ f a := hxy.subset (by simp)
      rw [hkey a x hx, hkey a y hy]
    · intro x hx y hy
      obtain ⟨b, hb, hyb⟩ := List.mem_flatMap.1 hy
      rw [hkey a x hx, hkey b y hyb]
      exact h.1 b hb


/-- The two ends of a clamped range that passed the assertions. -/
theorem coveringZoomRange_ok_eq (czl : Dbl → SourceType → Nat → Int) (minZoom maxZoom : Dbl)
    (type : SourceType) (tileSize : Nat) (zoomRange r : Range)
    (h : coveringZoomRange czl minZoom maxZoom type tileSize zoomRange = .ok r) :
    (r.min : Int) = Max.max (czl minZoom type tileSize) (zoomRange.min : Int)
    ∧ (r.max : Int) = Min.min (czl maxZoom type tileSize) (zoomRange.max : Int)
    ∧ zoomRange.min ≤ r.min ∧ r.max ≤ zoomRange.max := by
  unfold coveringZoomRange at h
  simp only at h
  split at h
  · rename_i hc
    injection h with h
    subst h
    simp only
    omega
  · cases h

/-- A run that `_tileCover` returns is the run over the zooms of the clamped range. -/
theorem _tileCover_some {G : Type} (fuel : Nat) (czl : Dbl → SourceType → Nat → Int)
    (cover : G → Nat → List UnwrappedTileID) (minZoom maxZoom : Dbl)
    (geometry : G) (type : SourceType) (tileSize : Nat) (zoomRange : Range) (run : CoverRun)
    (h : _tileCover fuel czl cover minZoom maxZoom geometry type tileSize zoomRange
      = .ok (some run)) :
    ∃ r, coveringZoomRange czl minZoom maxZoom type tileSize zoomRange = .ok r
      ∧ run = { result := r.zooms.flatMap
                  (fun z => (cover geometry z).map (fun tile => tile.canonical))
                calls := r.zooms } := by
  cases hc : coveringZoomRange czl minZoom maxZoom type tileSize zoomRange with
  | error e =>
    unfold _tileCover at h
    rw [hc] at h
    cases h
  | ok r =>
    refine ⟨r, rfl, ?_⟩
    have hb := coveringZoomRange_ok czl minZoom maxZoom type tileSize zoomRange r hc
    by_cases hfuel : r.max + 1 - r.min < fuel
    · rw [_tileCover_ok fuel czl cover minZoom maxZoom geometry type tileSize zoomRange r hc
        hfuel] at h
      injection h with h
      injection h with h
      exact h.symm
    · unfold _tileCover at h
      rw [hc] at h
      simp only at h
      by_cases hz : r.min ≤ r.max + 1
      · rw [tileCoverLoop_none (cover geometry) r.max hb.2 fuel (r.max + 1 - r.min) r.min _
          (by omega) (by omega)] at h
        injection h with h
        cases h
      · have h0 : fuel = 0 := by omega
        subst h0
        injection h with h
        cases h

/-- A run that `tileCover` returns is the run over the zooms of the clamped range. -/
theorem tileCover_some (fuel : Nat) (s : CoverService) (d : OfflineRegionDefinition)
    (type : SourceType) (tileSize : Nat) (zoomRange : Range) (run : CoverRun)
    (h : d.tileCover fuel s type tileSize zoomRange = .ok (some run)) :
    ∃ r, d.clampedZoomRange s type tileSize zoomRange = .ok r
      ∧ run = { result := r.zooms.flatMap
                  (fun z => (d.areaCover s z).map (fun tile => tile.canonical))
                calls := r.zooms } := by
  cases d with
  | tilePyramid p =>
    exact _tileCover_some fuel s.coveringZoomLevel s.tileCoverBounds p.minZoom p.maxZoom
      p.bounds type tileSize zoomRange run h
  | geometry g =>
    exact _tileCover_some fuel s.coveringZoomLevel s.tileCoverGeometry g.minZoom g.maxZoom
      g.geometry type tileSize zoomRange run h


/-! ## The claims on the zoom clamp and the loops -/

/-- C15. With `lowZoom` and `highZoom` the covering zoom levels of `minZoom`
and `maxZoom`, whenever `max(lowZoom, validRange.min)` and
`min(highZoom, validRange.max)` both lie in `[0, 255)`, `coveringZoomRange`
returns the range with exactly these two ends. -/
theorem coveringZoomRange_eq_clamp (czl : Dbl → SourceType → Nat → Int) (minZoom maxZoom : Dbl)
    (type : SourceType) (tileSize : Nat) (zoomRange : Range)
    (hmin0 : 0 ≤ Max.max (czl minZoom type tileSize) (zoomRange.min : Int))
    (hmin : Max.max (czl minZoom type tileSize) (zoomRange.min : Int) < 255)
    (hmax0 : 0 ≤ Min.min (czl maxZoom type tileSize) (zoomRange.max : Int))
    (hmax : Min.min (czl maxZoom type tileSize) (zoomRange.max : Int) < 255) :
    ∃ r : Range, coveringZoomRange czl minZoom maxZoom type tileSize zoomRange = .ok r
      ∧ (r.min : Int) = Max.max (czl minZoom type tileSize) (zoomRange.min : Int)
      ∧ (r.max : Int) = Min.min (czl maxZoom type tileSize) (zoomRange.max : Int) := by
  refine ⟨{ min := (Max.max (czl minZoom type tileSize) (zoomRange.min : Int)).toNat
            max := (Min.min (czl maxZoom type tileSize) (zoomRange.max : Int)).toNat }, ?_, ?_, ?_⟩
  · unfold coveringZoomRange
    simp only
    rw [if_pos ⟨hmin0, hmax0, hmin, hmax⟩]
  · exact Int.toNat_of_nonneg hmin0
  · exact Int.toNat_of_nonneg hmax0

/-- C15, on the zooms of the test `Point` over the valid zooms 0 to 22: the
clamped range is `{0, 2}`. -/
theorem coveringZoomRange_eq_clamp_witness :
    ∃ r : Range,
      coveringZoomRange sampleCoverService.coveringZoomLevel (.fin 0) (.fin 2) .Vector 512
          ⟨0, 22⟩ = .ok r
      ∧ (r.min : Int)
          = Max.max (sampleCoverService.coveringZoomLevel (.fin 0) .Vector 512) ((0 : Nat) : Int)
      ∧ (r.max : Int)
          = Min.min (sampleCoverService.coveringZoomLevel (.fin 2) .Vector 512) ((22 : Nat) : Int) :=
  coveringZoomRange_eq_clamp sampleCoverService.coveringZoomLevel (.fin 0) (.fin 2) .Vector 512
    ⟨0, 22⟩ (by decide) (by decide) (by decide) (by decide)

/-- Where the assertions pass, the build without them returns the same range. -/
theorem coveringZoomRangeNDEBUG_of_ok (czl : Dbl → SourceType → Nat → Int)
    (minZoom maxZoom : Dbl) (type : SourceType) (tileSize : Nat) (zoomRange r : Range)
    (h : coveringZoomRange czl minZoom maxZoom type tileSize zoomRange = .ok r) :
    coveringZoomRangeNDEBUG czl minZoom maxZoom type tileSize zoomRange = some r := by
  unfold coveringZoomRange at h
  unfold coveringZoomRangeNDEBUG
  simp only at h ⊢
  split at h
  · rename_i hc
    injection h with h
    rw [if_pos ⟨hc.1, by omega, hc.2.1, by omega⟩, h]
  · cases h

/-- C16 (as amended). Every range that `coveringZoomRange` returns, with its
assertions compiled in or compiled out, has both ends in `[0, 255]`; that
`min <= max` is not part of the statement. -/
theorem coveringZoomRange_ends (czl : Dbl → SourceType → Nat → Int) (minZoom maxZoom : Dbl)
    (type : SourceType) (tileSize : Nat) (zoomRange r : Range)
    (h : coveringZoomRange czl minZoom maxZoom type tileSize zoomRange = .ok r
      ∨ coveringZoomRangeNDEBUG czl minZoom maxZoom type tileSize zoomRange = some r) :
    0 ≤ r.min ∧ r.min ≤ 255 ∧ 0 ≤ r.max ∧ r.max ≤ 255 := by
  have hn : coveringZoomRangeNDEBUG czl minZoom maxZoom type tileSize zoomRange = some r := by
    rcases h with h | h
    · exact coveringZoomRangeNDEBUG_of_ok czl minZoom maxZoom type tileSize zoomRange r h
    · exact h
  unfold coveringZoomRangeNDEBUG at hn
  simp only at hn
  split at hn
  · rename_i hc
    injection hn with hn
    subst hn
    simp only
    omega
  · cases hn

/-- C16 (as amended), on the zooms of the test `Point`, the range `{0, 2}`, and
on the zooms 0 to 255 over the valid zooms 0 to 255, where the build without
assertions returns `{0, 255}`. -/
theorem coveringZoomRange_ends_witness :
    coveringZoomRange sampleCoverService.coveringZoomLevel (.fin 0) (.fin 2) .Vector 512
        ⟨0, 22⟩ = .ok ⟨0, 2⟩
    ∧ (0 ≤ (⟨0, 2⟩ : Range).min ∧ (⟨0, 2⟩ : Range).min ≤ 255
        ∧ 0 ≤ (⟨0, 2⟩ : Range).max ∧ (⟨0, 2⟩ : Range).max ≤ 255)
    ∧ coveringZoomRangeNDEBUG sampleCoverService.coveringZoomLevel (.fin 0) (.fin 255) .Vector
        512 ⟨0, 255⟩ = some ⟨0, 255⟩
    ∧ (0 ≤ (⟨0, 255⟩ : Range).min ∧ (⟨0, 255⟩ : Range).min ≤ 255
        ∧ 0 ≤ (⟨0, 255⟩ : Range).max ∧ (⟨0, 255⟩ : Range).max ≤ 255) :=
  ⟨by decide,
    coveringZoomRange_ends sampleCoverService.coveringZoomLevel (.fin 0) (.fin 2) .Vector 512
      ⟨0, 22⟩ ⟨0, 2⟩ (Or.inl (by decide)),
    by decide,
    coveringZoomRange_ends sampleCoverService.coveringZoomLevel (.fin 0) (.fin 255) .Vector 512
      ⟨0, 255⟩ ⟨0, 255⟩ (Or.inr (by decide))⟩

/-- C16 fails on the region of the test `TileCoverZoomIntersection`, which its
constructor returns, against the valid zooms 3 to 22, where `3 <= 22`: the
range returned is `{3, 2}`, with `min > max`, with the assertions compiled in
and compiled out. -/
theorem coveringZoomRange_min_gt_max_counterexample :
    sampleZoomTwo.Constructed
    ∧ (⟨3, 22⟩ : Range).min ≤ (⟨3, 22⟩ : Range).max
    ∧ sampleZoomTwo.clampedZoomRange sampleCoverService .Vector 512 ⟨3, 22⟩ = .ok ⟨3, 2⟩
    ∧ ¬ ((⟨3, 2⟩ : Range).min ≤ (⟨3, 2⟩ : Range).max)
    ∧ coveringZoomRangeNDEBUG sampleCoverService.coveringZoomLevel sampleZoomTwo.minZoom
        sampleZoomTwo.maxZoom .Vector 512 ⟨3, 22⟩ = some ⟨3, 2⟩ :=
  ⟨by rfl, by decide, by decide, by decide, by decide⟩

/-- C17. When `TileCover(area, z)` only yields tiles of zoom `z`, every tile
that `tileCover` returns has a zoom between `validRange.min` and
`validRange.max`, and the zooms of the tiles are ascending along the sequence
(each tile against every later one, so also each against the next); and
`tileCover` returns when the clamp passes its assertions. -/
theorem tileCover_zooms_valid_ascending (s : CoverService) (d : OfflineRegionDefinition)
    (type : SourceType) (tileSize : Nat) (zoomRange : Range)
    (hservice : ∀ z, ∀ t ∈ d.areaCover s z, t.canonical.z = z) :
    (∀ (fuel : Nat) (run : CoverRun),
      d.tileCover fuel s type tileSize zoomRange = .ok (some run) →
        (∀ t ∈ run.result, zoomRange.min ≤ t.z ∧ t.z ≤ zoomRange.max)
        ∧ run.result.Pairwise (fun a b => a.z ≤ b.z)
        ∧ run.result.Chain' (fun a b => a.z ≤ b.z))
    ∧ (∀ r, d.clampedZoomRange s type tileSize zoomRange = .ok r →
        ∃ run, d.tileCover 256 s type tileSize zoomRange = .ok (some run)) := by
  have hkey : ∀ z, ∀ t ∈ (d.areaCover s z).map (fun tile => tile.canonical), t.z = z := by
    intro z t ht
    obtain ⟨u, hu, rfl⟩ := List.mem_map.1 ht
    exact hservice z u hu
  constructor
  · intro fuel run h
    obtain ⟨r, hclamp, rfl⟩ := tileCover_some fuel s d type tileSize zoomRange run h
    obtain ⟨_, _, hlo, hhi⟩ := coveringZoomRange_ok_eq s.coveringZoomLevel d.minZoom d.maxZoom
      type tileSize zoomRange r hclamp
    have hpair : (r.zooms.flatMap
        (fun z => (d.areaCover s z).map (fun tile => tile.canonical))).Pairwise
        (fun a b => a.z ≤ b.z) := by
      apply pairwise_flatMap_key (fun t : CanonicalTileID => t.z) _ hkey
      exact (List.pairwise_lt_range' r.min (r.max + 1 - r.min)).imp (fun hab => Nat.le_of_lt hab)
    refine ⟨?_, hpair, hpair.chain'⟩
    intro t ht
    obtain ⟨z, hz, htz⟩ := List.mem_flatMap.1 ht
    rw [hkey z t htz]
    have hz' := List.mem_range'_1.1 hz
    omega
  · intro r hclamp
    have hb := coveringZoomRange_ok s.coveringZoomLevel d.minZoom d.maxZoom type tileSize
      zoomRange r hclamp
    exact ⟨_, tileCover_ok 256 s d type tileSize zoomRange r hclamp (by omega)⟩

/-- C17, on the region of the test `Point`: zooms 0, 1, 2, within 0 to 22. -/
theorem tileCover_zooms_valid_ascending_witness :
    (∀ z, ∀ t ∈ samplePoint.areaCover sampleCoverService z, t.canonical.z = z)
    ∧ samplePoint.tileCover 256 sampleCoverService .Vector 512 ⟨0, 22⟩
        = .ok (some { result := [⟨0, 0, 0⟩, ⟨1, 0, 0⟩, ⟨2, 0, 1⟩], calls := [0, 1, 2] })
    ∧ (∀ t ∈ [(⟨0, 0, 0⟩ : CanonicalTileID), ⟨1, 0, 0⟩, ⟨2, 0, 1⟩], 0 ≤ t.z ∧ t.z ≤ 22) :=
  ⟨fun z t ht => by
      have h : t = ⟨0, ⟨z, 0, z / 2⟩⟩ := by
        simpa [samplePoint, sampleCoverService, OfflineRegionDefinition.areaCover] using ht
      rw [h],
    by decide,
    ((tileCover_zooms_valid_ascending sampleCoverService samplePoint .Vector 512 ⟨0, 22⟩
      (fun z t ht => by
        have h : t = ⟨0, ⟨z, 0, z / 2⟩⟩ := by
          simpa [samplePoint, sampleCoverService, OfflineRegionDefinition.areaCover] using ht
        rw [h])).1 256
      { result := [⟨0, 0, 0⟩, ⟨1, 0, 0⟩, ⟨2, 0, 1⟩], calls := [0, 1, 2] } (by decide)).1⟩

/-- C18. The loops of `_tileCover` and `_tileCount` count a `uint8_t` from
`min` while `z <= max`.  For `max < 255` both end, as soon as the condition may
be evaluated `max - min + 2` times (once when `min > max`), after calling the
service at `min, ..., max`: `max - min + 1` calls when `min <= max`, none
otherwise.  For `max = 255` the counter wraps modulo 256 and the condition
holds at every evaluation: no number of evaluations ends either loop. -/
theorem loops_end_iff_max_below_255 (cover : Nat → List UnwrappedTileID) (count : Nat → Nat)
    (r : Range) :
    (r.max < 255 → ∀ fuel, r.max + 1 - r.min < fuel →
      ∃ (cr : CoverRun) (nr : CountRun),
        tileCoverLoop cover r.max fuel r.min { result := [], calls := [] } = some cr
        ∧ tileCountLoop count r.max fuel r.min { result := 0, calls := [] } = some nr
        ∧ cr.calls = List.range' r.min (r.max + 1 - r.min)
        ∧ nr.calls = List.range' r.min (r.max + 1 - r.min)
        ∧ (r.min ≤ r.max → cr.calls.length = r.max - r.min + 1
            ∧ nr.calls.length = r.max - r.min + 1)
        ∧ (r.max < r.min → cr.calls = [] ∧ nr.calls = []))
    ∧ (r.max = 255 → r.min < 256 → ∀ fuel,
        tileCoverLoop cover r.max fuel r.min { result := [], calls := [] } = none
        ∧ tileCountLoop count r.max fuel r.min { result := 0, calls := [] } = none) := by
  constructor
  · intro hmax fuel hfuel
    obtain ⟨result, hn⟩ := tileCountLoop_range count r hmax fuel hfuel
    refine ⟨_, _, tileCoverLoop_range cover r hmax fuel hfuel, hn, rfl, rfl, ?_, ?_⟩
    · intro hle
      simp only [Range.zooms, List.length_range']
      omega
    · intro hlt
      have h0 : r.max + 1 - r.min = 0 := by omega
      simp [Range.zooms, h0]
  · intro hmax hmin fuel
    rw [hmax]
    exact ⟨tileCoverLoop_wrap cover fuel r.min _ hmin, tileCountLoop_wrap count fuel r.min _ hmin⟩

/-- C18, on the ranges `{0, 2}`, three calls, and `{0, 255}`, where a thousand
evaluations of the condition do not end the loops. -/
theorem loops_end_iff_max_below_255_witness :
    (∃ (cr : CoverRun) (nr : CountRun),
        tileCoverLoop (sampleCoverService.tileCoverBounds LatLngBounds.world) 2 4 0
          { result := [], calls := [] } = some cr
        ∧ tileCountLoop (sampleCoverService.tileCountBounds LatLngBounds.world) 2 4 0
          { result := 0, calls := [] } = some nr
        ∧ cr.calls = List.range' 0 3 ∧ nr.calls = List.range' 0 3)
    ∧ tileCoverLoop (sampleCoverService.tileCoverBounds LatLngBounds.world) 255 1000 0
        { result := [], calls := [] } = none
    ∧ tileCountLoop (sampleCoverService.tileCountBounds LatLngBounds.world) 255 1000 0
        { result := 0, calls := [] } = none :=
  ⟨by
      obtain ⟨cr, nr, h1, h2, h3, h4, _⟩ :=
        (loops_end_iff_max_below_255 (sampleCoverService.tileCoverBounds LatLngBounds.world)
          (sampleCoverService.tileCountBounds LatLngBounds.world) ⟨0, 2⟩).1 (by decide) 4
          (by decide)
      exact ⟨cr, nr, h1, h2, h3, h4⟩,
    ((loops_end_iff_max_below_255 (sampleCoverService.tileCoverBounds LatLngBounds.world)
      (sampleCoverService.tileCountBounds LatLngBounds.world) ⟨0, 255⟩).2 rfl (by decide)
      1000).1,
    ((loops_end_iff_max_below_255 (sampleCoverService.tileCoverBounds LatLngBounds.world)
      (sampleCoverService.tileCountBounds LatLngBounds.world) ⟨0, 255⟩).2 rfl (by decide)
      1000).2⟩

/-! ## More on decoding -/

/-- The result of a constructor, by its condition. -/
theorem construct_pyramid_eq (s : String) (b : LatLngBounds) (a m p : Dbl) :
    OfflineTilePyramidRegionDefinition.construct s b a m p =
      if invalidZoomOrRatio a m p = true then .error invalidDefinition
      else .ok { styleURL := s, bounds := b, minZoom := a, maxZoom := m, pixelRatio := p } := rfl

theorem construct_geometry_eq (s : String) (g : Geometry) (a m p : Dbl) :
    OfflineGeometryRegionDefinition.construct s g a m p =
      if invalidZoomOrRatio a m p = true then .error invalidDefinition
      else .ok { styleURL := s, geometry := g, minZoom := a, maxZoom := m, pixelRatio := p } := rfl

/-- The hull does not depend on the order of its two corners, when no
coordinate is NaN. -/
theorem hull_comm (s w n e : Dbl) (hs : Dbl.isnan s = false) (hw : Dbl.isnan w = false)
    (hn : Dbl.isnan n = false) (he : Dbl.isnan e = false) :
    LatLngBounds.hull ⟨n, e⟩ ⟨s, w⟩ = LatLngBounds.hull ⟨s, w⟩ ⟨n, e⟩ := by
  have key : ∀ x y : Dbl, Dbl.isnan x = false → Dbl.isnan y = false →
      Dbl.min x y = Dbl.min y x ∧ Dbl.max x y = Dbl.max y x := by
    intro x y hx hy
    cases x <;> cases y <;> simp [Dbl.isnan, Dbl.lt, Dbl.min, Dbl.max] at hx hy ⊢
    rename_i a b
    constructor
    · split_ifs with h1 h2 h2
      · exact absurd h1 (not_lt.mpr (le_of_lt h2))
      · rfl
      · rfl
      · exact congrArg Dbl.fin (le_antisymm (not_lt.mp h1) (not_lt.mp h2))
    · split_ifs with h1 h2 h2
      · exact absurd h1 (not_lt.mpr (le_of_lt h2))
      · rfl
      · rfl
      · exact congrArg Dbl.fin (le_antisymm (not_lt.mp h2) (not_lt.mp h1))
  simp only [LatLngBounds.hull]
  rw [(key s n hs hn).1, (key w e hw he).1, (key s n hs hn).2, (key w e hw he).2]

/-- The members of a document whose bounds are an array of four numbers. -/
theorem boundsAre_number (ms : List (String × JValue))
    (h : boundsAre JValue.IsNumber ms = true) :
    ∃ (x0 x1 x2 x3 : JValue) (b0 b1 b2 b3 : Dbl),
      findMember "bounds" ms = some (.array [x0, x1, x2, x3])
      ∧ x0.GetDouble = .ok b0 ∧ x1.GetDouble = .ok b1 ∧ x2.GetDouble = .ok b2
      ∧ x3.GetDouble = .ok b3 := by
  have hnum : ∀ v : JValue, v.IsNumber = true → ∃ b, v.GetDouble = .ok b := by
    intro v hv
    cases v <;> simp [JValue.IsNumber] at hv
    · exact ⟨_, rfl⟩
    · exact ⟨_, rfl⟩
  unfold boundsAre at h
  cases hf : findMember "bounds" ms with
  | none => rw [hf] at h; cases h
  | some v =>
    rw [hf] at h
    cases v with
    | array xs =>
      rcases xs with _ | ⟨a, _ | ⟨b, _ | ⟨c, _ | ⟨d, _ | ⟨e, xs⟩⟩⟩⟩⟩ <;> try (cases h)
      simp only [Bool.and_eq_true] at h
      obtain ⟨⟨⟨ha, hb⟩, hc⟩, hd⟩ := h
      obtain ⟨b0, h0⟩ := hnum a ha
      obtain ⟨b1, h1⟩ := hnum b hb
      obtain ⟨b2, h2⟩ := hnum c hc
      obtain ⟨b3, h3⟩ := hnum d hd
      exact ⟨a, b, c, d, b0, b1, b2, b3, rfl, h0, h1, h2, h3⟩
    | _ => cases h

/-- A valid document whose bounds are an array of four numbers decodes to what
the constructor of the tile pyramid returns, whatever its geometry. -/
theorem decodeDocument_of_number_bounds (L : CodecLibrary) (ms : List (String × JValue))
    (hv : structurallyValid ms = true) (x0 x1 x2 x3 : JValue) (b0 b1 b2 b3 : Dbl)
    (hb : findMember "bounds" ms = some (.array [x0, x1, x2, x3]))
    (h0 : x0.GetDouble = .ok b0) (h1 : x1.GetDouble = .ok b1) (h2 : x2.GetDouble = .ok b2)
    (h3 : x3.GetDouble = .ok b3) :
    ∃ (s : String) (a p : Dbl),
      findMember "style_url" ms = some (.string s)
      ∧ findMember "min_zoom" ms = some (.double a)
      ∧ findMember "pixel_ratio" ms = some (.double p)
      ∧ decodeDocument L { HasParseError := false, root := .object ms } =
        Except.map OfflineRegionDefinition.tilePyramid
          (OfflineTilePyramidRegionDefinition.construct s
            (LatLngBounds.hull ⟨b0, b1⟩ ⟨b2, b3⟩) a (maxZoomOf ms) (L.toFloat p)) := by
  obtain ⟨s, a, p, hs, hm, hp, hx, _⟩ := structurallyValid_members ms hv
  refine ⟨s, a, p, hs, hm, hp, ?_⟩
  rw [decodeDocument_valid L ms hv, decodeValidated_object L ms s a p hs hm hp hx, hb]
  simp only [JValue.element, List.get?, h0, h1, h2, h3, bind, Except.bind]
  cases OfflineTilePyramidRegionDefinition.construct s
    (LatLngBounds.hull ⟨b0, b1⟩ ⟨b2, b3⟩) a (maxZoomOf ms) (L.toFloat p) <;> rfl

/-- A valid document with no bounds has a geometry that is an object. -/
theorem geometry_of_no_bounds (ms : List (String × JValue)) (hv : structurallyValid ms = true)
    (hb : findMember "bounds" ms = none) :
    ∃ gs, findMember "geometry" ms = some (.object gs) := by
  obtain ⟨_, _, _, _, _, _, _, hbg⟩ := structurallyValid_members ms hv
  rcases hbg with h | h
  · simp [boundsAre, hb] at h
  · unfold memberIs at h
    cases hg : findMember "geometry" ms with
    | none => rw [hg] at h; cases h
    | some v =>
      rw [hg] at h
      cases v <;> simp [JValue.IsObject] at h
      exact ⟨_, rfl⟩


/-! ## The claims on decoding -/

/-- C11, at texts that parse to a value that is not an object: an array, a
string, a number, `true` and `null`.  `HasParseError()` is false, and the next
operand `doc.HasMember("style_url")` fails the assertion `IsObject()` of
rapidjson: the member lookups are entered, and no `std::runtime_error` is
thrown. -/
theorem decode_non_object_root_asserts :
    decodeOfflineRegionDefinition (sampleCodecLibrary "[1,2]" (.array [.int 1, .int 2])) "[1,2]"
      = .error .assertion
    ∧ decodeOfflineRegionDefinition (sampleCodecLibrary "\"x\"" (.string "x")) "\"x\""
      = .error .assertion
    ∧ decodeOfflineRegionDefinition (sampleCodecLibrary "7" (.int 7)) "7" = .error .assertion
    ∧ decodeOfflineRegionDefinition (sampleCodecLibrary "true" (.bool true)) "true"
      = .error .assertion
    ∧ decodeOfflineRegionDefinition (sampleCodecLibrary "null" .null) "null"
      = .error .assertion
    ∧ Failure.assertion ≠ malformed :=
  ⟨by decide, by decide, by decide, by decide, by decide, by decide⟩

/-- C12 (as amended). A document that passes the validation and whose bounds
validate decodes to the tile-pyramid definition of its fields exactly when the
minimum zoom, the maximum zoom (plus infinity when absent) and the pixel ratio,
narrowed to `float`, pass the condition of the constructor, and fails with
`std::invalid_argument` otherwise.  A document that passes the validation and
has no bounds has its geometry converted first: when the converter fails, its
failure is the result; otherwise the document decodes to the geometry
definition exactly when the same values pass the condition of the constructor,
and fails with `std::invalid_argument` otherwise. -/
theorem decode_invalid_iff (L : CodecLibrary) (region : String) (ms : List (String × JValue))
    (hparse : L.Parse region = { HasParseError := false, root := .object ms })
    (hv : structurallyValid ms = true) :
    ∃ (s : String) (a p : Dbl),
      findMember "style_url" ms = some (.string s)
      ∧ findMember "min_zoom" ms = some (.double a)
      ∧ findMember "pixel_ratio" ms = some (.double p)
      ∧ (∀ b0 b1 b2 b3 : Dbl,
          findMember "bounds" ms
            = some (.array [.double b0, .double b1, .double b2, .double b3]) →
          decodeOfflineRegionDefinition L region =
            if invalidZoomOrRatio a (maxZoomOf ms) (L.toFloat p) = true then
              .error invalidDefinition
            else
              .ok (.tilePyramid
                { styleURL := s, bounds := LatLngBounds.hull ⟨b0, b1⟩ ⟨b2, b3⟩, minZoom := a,
                  maxZoom := maxZoomOf ms, pixelRatio := L.toFloat p }))
      ∧ (findMember "bounds" ms = none →
          ∃ gs, findMember "geometry" ms = some (.object gs)
            ∧ decodeOfflineRegionDefinition L region =
              match L.toGeometry (.object gs) with
              | .error e => .error e
              | .ok g =>
                if invalidZoomOrRatio a (maxZoomOf ms) (L.toFloat p) = true then
                  .error invalidDefinition
                else
                  .ok (.geometry
                    { styleURL := s, geometry := g, minZoom := a, maxZoom := maxZoomOf ms,
                      pixelRatio := L.toFloat p })) := by
  obtain ⟨s, a, p, hs, hm, hp, hx, _⟩ := structurallyValid_members ms hv
  refine ⟨s, a, p, hs, hm, hp, ?_, ?_⟩
  · intro b0 b1 b2 b3 hb
    unfold decodeOfflineRegionDefinition
    rw [hparse, decodeDocument_of_bounds L ms s a p b0 b1 b2 b3 hs hm hp hx hb,
      construct_pyramid_eq]
    split <;> rfl
  · intro hb
    obtain ⟨gs, hg⟩ := geometry_of_no_bounds ms hv hb
    refine ⟨gs, hg, ?_⟩
    unfold decodeOfflineRegionDefinition
    rw [hparse, decodeDocument_of_geometry L ms gs s a p hs hm hp hx hb hg]
    cases L.toGeometry (.object gs) with
    | error e => rfl
    | ok g =>
      simp only [construct_geometry_eq]
      split <;> rfl

/-- C12 (as amended), on a document whose maximum zoom 1 is below its minimum
zoom 2: it passes the validation, and the constructor throws. -/
theorem decode_invalid_iff_witness :
    structurallyValid
        [("style_url", .string "x"), ("min_zoom", .double (.fin 2)),
         ("max_zoom", .double (.fin 1)), ("pixel_ratio", .double (.fin 1)),
         ("bounds", .array [.double (.fin 0), .double (.fin 0), .double (.fin 1),
                            .double (.fin 1)])] = true
    ∧ decodeOfflineRegionDefinition (sampleCodecLibrary zoomOrderText zoomOrderDocument)
        zoomOrderText = .error invalidDefinition := by
  refine ⟨by decide, ?_⟩
  obtain ⟨s, a, p, hs, hm, hp, hb, _⟩ :=
    decode_invalid_iff (sampleCodecLibrary zoomOrderText zoomOrderDocument) zoomOrderText
      [("style_url", .string "x"), ("min_zoom", .double (.fin 2)),
       ("max_zoom", .double (.fin 1)), ("pixel_ratio", .double (.fin 1)),
       ("bounds", .array [.double (.fin 0), .double (.fin 0), .double (.fin 1),
                          .double (.fin 1)])] (by rfl) (by decide)
  rw [hb (.fin 0) (.fin 0) (.fin 1) (.fin 1) (by simp [findMember])]
  have ha : a = .fin 2 := by simpa [findMember] using hm.symm
  have hp' : p = .fin 1 := by simpa [findMember] using hp.symm
  subst ha
  subst hp'
  rw [if_pos (by decide)]

/-- C12 fails on `{"style_url":"x","min_zoom":-1.0,"pixel_ratio":1.0,"geometry":{}}`,
which passes the validation and has a negative minimum zoom: the geometry is
converted before the constructor is entered, the converter rejects the object,
and the failure is the one of the converter, not `std::invalid_argument`. -/
theorem decode_geometry_failure_counterexample :
    structurallyValid
        [("style_url", .string "x"), ("min_zoom", .double (.fin (-1))),
         ("pixel_ratio", .double (.fin 1)), ("geometry", .object [])] = true
    ∧ invalidZoomOrRatio (.fin (-1)) .posInf (.fin 1) = true
    ∧ decodeOfflineRegionDefinition
        (sampleStrictLibrary negativeZoomGeometryText negativeZoomGeometryDocument)
        negativeZoomGeometryText = .error .geojson_error
    ∧ Failure.geojson_error ≠ invalidDefinition :=
  ⟨by decide, by decide, by decide, by decide⟩

/-- C13. A document that passes the validation and whose bounds are an array
of exactly four numbers decodes to what the constructor of the tile pyramid
returns for the hull of these bounds, whatever its other members: a geometry in
the same document is not read, and no geometry definition is returned. -/
theorem decode_bounds_precede_geometry (L : CodecLibrary) (region : String)
    (ms : List (String × JValue))
    (hparse : L.Parse region = { HasParseError := false, root := .object ms })
    (hv : structurallyValid ms = true) (hb : boundsAre JValue.IsNumber ms = true) :
    (∃ (x0 x1 x2 x3 : JValue) (b0 b1 b2 b3 : Dbl) (s : String) (a p : Dbl),
      findMember "bounds" ms = some (.array [x0, x1, x2, x3])
      ∧ x0.GetDouble = .ok b0 ∧ x1.GetDouble = .ok b1 ∧ x2.GetDouble = .ok b2
      ∧ x3.GetDouble = .ok b3
      ∧ decodeOfflineRegionDefinition L region =
        Except.map OfflineRegionDefinition.tilePyramid
          (OfflineTilePyramidRegionDefinition.construct s
            (LatLngBounds.hull ⟨b0, b1⟩ ⟨b2, b3⟩) a (maxZoomOf ms) (L.toFloat p)))
    ∧ (∀ g : OfflineGeometryRegionDefinition,
        decodeOfflineRegionDefinition L region ≠ .ok (.geometry g)) := by
  obtain ⟨x0, x1, x2, x3, b0, b1, b2, b3, hbounds, h0, h1, h2, h3⟩ := boundsAre_number ms hb
  obtain ⟨s, a, p, _, _, _, hdec⟩ :=
    decodeDocument_of_number_bounds L ms hv x0 x1 x2 x3 b0 b1 b2 b3 hbounds h0 h1 h2 h3
  have hdec' : decodeOfflineRegionDefinition L region =
      Except.map OfflineRegionDefinition.tilePyramid
        (OfflineTilePyramidRegionDefinition.construct s
          (LatLngBounds.hull ⟨b0, b1⟩ ⟨b2, b3⟩) a (maxZoomOf ms) (L.toFloat p)) := by
    unfold decodeOfflineRegionDefinition
    rw [hparse, hdec]
  refine ⟨⟨x0, x1, x2, x3, b0, b1, b2, b3, s, a, p, hbounds, h0, h1, h2, h3, hdec'⟩, ?_⟩
  intro g hg
  rw [hdec'] at hg
  cases hc : OfflineTilePyramidRegionDefinition.construct s
    (LatLngBounds.hull ⟨b0, b1⟩ ⟨b2, b3⟩) a (maxZoomOf ms) (L.toFloat p) <;>
    rw [hc] at hg <;> cases hg

/-- C13, on a document with valid bounds and a well-formed geometry: the tile
pyramid of the bounds. -/
theorem decode_bounds_precede_geometry_witness :
    boundsAre JValue.IsDouble
        [("style_url", .string "x"), ("min_zoom", .double (.fin 0)),
         ("pixel_ratio", .double (.fin 1)),
         ("bounds", .array [.double (.fin 0), .double (.fin 0), .double (.fin 1),
                            .double (.fin 1)]),
         ("geometry", pointGeometryObject)] = true
    ∧ memberIs JValue.IsObject "geometry"
        [("style_url", .string "x"), ("min_zoom", .double (.fin 0)),
         ("pixel_ratio", .double (.fin 1)),
         ("bounds", .array [.double (.fin 0), .double (.fin 0), .double (.fin 1),
                            .double (.fin 1)]),
         ("geometry", pointGeometryObject)] = true
    ∧ decodeOfflineRegionDefinition
        (sampleStrictLibrary boundsAndGeometryText boundsAndGeometryDocument)
        boundsAndGeometryText =
      .ok (.tilePyramid
        { styleURL := "x", bounds := { sw := ⟨.fin 0, .fin 0⟩, ne := ⟨.fin 1, .fin 1⟩ },
          minZoom := .fin 0, maxZoom := .posInf, pixelRatio := .fin 1 })
    ∧ ∀ g : OfflineGeometryRegionDefinition,
        decodeOfflineRegionDefinition
          (sampleStrictLibrary boundsAndGeometryText boundsAndGeometryDocument)
          boundsAndGeometryText ≠ .ok (.geometry g) :=
  ⟨by decide, by decide, by decide,
    (decode_bounds_precede_geometry
      (sampleStrictLibrary boundsAndGeometryText boundsAndGeometryDocument)
      boundsAndGeometryText
      [("style_url", .string "x"), ("min_zoom", .double (.fin 0)),
       ("pixel_ratio", .double (.fin 1)),
       ("bounds", .array [.double (.fin 0), .double (.fin 0), .double (.fin 1),
                          .double (.fin 1)]),
       ("geometry", pointGeometryObject)] (by rfl) (by decide) (by decide)).2⟩


/-- C14. A document with the bounds `[a, b, c, d]` that decodes, decodes to a
tile-pyramid definition whose bounds are `hull((a, b), (c, d))`.  So the
document with the bounds `[north, east, south, west]` and the document with the
bounds `[south, west, north, east]` decode to the same bounds; a number of a
JSON document is not NaN. -/
theorem decode_bounds_eq_hull (L : CodecLibrary) :
    (∀ (region : String) (ms : List (String × JValue)) (b0 b1 b2 b3 : Dbl)
        (d : OfflineRegionDefinition),
      L.Parse region = { HasParseError := false, root := .object ms } →
      findMember "bounds" ms = some (.array [.double b0, .double b1, .double b2, .double b3]) →
      decodeOfflineRegionDefinition L region = .ok d →
      ∃ p : OfflineTilePyramidRegionDefinition,
        d = .tilePyramid p ∧ p.bounds = LatLngBounds.hull ⟨b0, b1⟩ ⟨b2, b3⟩)
    ∧ (∀ (region1 region2 : String) (ms1 ms2 : List (String × JValue))
        (south west north east : Dbl) (d1 d2 : OfflineRegionDefinition),
      L.Parse region1 = { HasParseError := false, root := .object ms1 } →
      L.Parse region2 = { HasParseError := false, root := .object ms2 } →
      findMember "bounds" ms1
        = some (.array [.double north, .double east, .double south, .double west]) →
      findMember "bounds" ms2
        = some (.array [.double south, .double west, .double north, .double east]) →
      Dbl.isnan south = false → Dbl.isnan west = false → Dbl.isnan north = false →
      Dbl.isnan east = false →
      decodeOfflineRegionDefinition L region1 = .ok d1 →
      decodeOfflineRegionDefinition L region2 = .ok d2 →
      ∃ p1 p2 : OfflineTilePyramidRegionDefinition,
        d1 = .tilePyramid p1 ∧ d2 = .tilePyramid p2 ∧ p1.bounds = p2.bounds) := by
  have first : ∀ (region : String) (ms : List (String × JValue)) (b0 b1 b2 b3 : Dbl)
      (d : OfflineRegionDefinition),
      L.Parse region = { HasParseError := false, root := .object ms } →
      findMember "bounds" ms = some (.array [.double b0, .double b1, .double b2, .double b3]) →
      decodeOfflineRegionDefinition L region = .ok d →
      ∃ p : OfflineTilePyramidRegionDefinition,
        d = .tilePyramid p ∧ p.bounds = LatLngBounds.hull ⟨b0, b1⟩ ⟨b2, b3⟩ := by
    intro region ms b0 b1 b2 b3 d hparse hb hd
    unfold decodeOfflineRegionDefinition at hd
    rw [hparse] at hd
    obtain ⟨ms0, s, a, p, hdoc, hv, hs, hm, hp, _⟩ := decodeDocument_ok L _ d hd
    have hms : ms0 = ms := by
      injection hdoc with _ hroot
      injection hroot with hroot
      exact hroot.symm
    subst hms
    obtain ⟨_, _, _, _, _, _, hx, _⟩ := structurallyValid_members ms0 hv
    rw [decodeDocument_of_bounds L ms0 s a p b0 b1 b2 b3 hs hm hp hx hb] at hd
    cases hc : OfflineTilePyramidRegionDefinition.construct s
      (LatLngBounds.hull ⟨b0, b1⟩ ⟨b2, b3⟩) a (maxZoomOf ms0) (L.toFloat p) with
    | error e => rw [hc] at hd; cases hd
    | ok q =>
      rw [hc] at hd
      have hq := construct_pyramid_ok _ _ _ _ _ _ hc
      have hdq : OfflineRegionDefinition.tilePyramid q = d := by
        injection hd
      exact ⟨q, hdq.symm, by rw [hq]⟩
  refine ⟨first, ?_⟩
  intro region1 region2 ms1 ms2 south west north east d1 d2 hp1 hp2 hb1 hb2 hs hw hn he hd1 hd2
  obtain ⟨p1, e1, h1⟩ := first region1 ms1 north east south west d1 hp1 hb1 hd1
  obtain ⟨p2, e2, h2⟩ := first region2 ms2 south west north east d2 hp2 hb2 hd2
  exact ⟨p1, p2, e1, e2, by rw [h1, h2, hull_comm south west north east hs hw hn he]⟩

/-- C14, on the bounds `[1, 1, 0, 0]` and `[0, 0, 1, 1]`: both decode to the
bounds from `(0, 0)` to `(1, 1)`. -/
theorem decode_bounds_eq_hull_witness :
    decodeOfflineRegionDefinition (sampleCodecLibrary swappedBoundsText swappedBoundsDocument)
        swappedBoundsText =
      .ok (.tilePyramid
        { styleURL := "x", bounds := { sw := ⟨.fin 0, .fin 0⟩, ne := ⟨.fin 1, .fin 1⟩ },
          minZoom := .fin 0, maxZoom := .posInf, pixelRatio := .fin 1 })
    ∧ ∃ p : OfflineTilePyramidRegionDefinition,
        OfflineRegionDefinition.tilePyramid
            { styleURL := "x", bounds := { sw := ⟨.fin 0, .fin 0⟩, ne := ⟨.fin 1, .fin 1⟩ },
              minZoom := .fin 0, maxZoom := .posInf, pixelRatio := .fin 1 }
          = .tilePyramid p
        ∧ p.bounds = LatLngBounds.hull ⟨.fin 1, .fin 1⟩ ⟨.fin 0, .fin 0⟩ :=
  ⟨by decide,
    (decode_bounds_eq_hull (sampleCodecLibrary swappedBoundsText swappedBoundsDocument)).1
      swappedBoundsText
      [("style_url", .string "x"), ("min_zoom", .double (.fin 0)),
       ("pixel_ratio", .double (.fin 1)),
       ("bounds", .array [.double (.fin 1), .double (.fin 1), .double (.fin 0),
                          .double (.fin 0)])]
      (.fin 1) (.fin 1) (.fin 0) (.fin 0) _ (by rfl) (by simp [findMember]) (by decide)⟩

/-- C19, at documents with a well-formed geometry and a malformed `bounds`.
Each passes the validation, through its geometry; the variant is then chosen on
`doc.HasMember("bounds")`, and the elements of the bounds are read without
having been validated.  Bounds of three elements, bounds that are a string and
bounds of four strings fail an assertion of rapidjson; bounds of four integers,
which `hasValidBounds` rejects, decode to a tile pyramid.  None decodes to the
geometry definition, which the same document without `bounds` decodes to. -/
theorem decode_malformed_bounds_not_geometry :
    structurallyValid
        [("style_url", .string "x"), ("min_zoom", .double (.fin 0)),
         ("pixel_ratio", .double (.fin 1)),
         ("bounds", .array [.double (.fin 0), .double (.fin 0), .double (.fin 0)]),
         ("geometry", pointGeometryObject)] = true
    ∧ boundsAre JValue.IsDouble
        [("style_url", .string "x"), ("min_zoom", .double (.fin 0)),
         ("pixel_ratio", .double (.fin 1)),
         ("bounds", .array [.double (.fin 0), .double (.fin 0), .double (.fin 0)]),
         ("geometry", pointGeometryObject)] = false
    ∧ decodeOfflineRegionDefinition
        (sampleStrictLibrary shortBoundsGeometryText shortBoundsGeometryDocument)
        shortBoundsGeometryText = .error .assertion
    ∧ decodeDocument (sampleStrictLibrary "" .null)
        { HasParseError := false, root := geometryDocumentWith [("bounds", .string "none")] }
      = .error .assertion
    ∧ decodeDocument (sampleStrictLibrary "" .null)
        { HasParseError := false
          root := geometryDocumentWith
            [("bounds", .array [.string "a", .string "b", .string "c", .string "d"])] }
      = .error .assertion
    ∧ decodeDocument (sampleStrictLibrary "" .null)
        { HasParseError := false
          root := geometryDocumentWith [("bounds", .array [.int 0, .int 0, .int 1, .int 1])] }
      = .ok (.tilePyramid
          { styleURL := "x", bounds := { sw := ⟨.fin 0, .fin 0⟩, ne := ⟨.fin 1, .fin 1⟩ },
            minZoom := .fin 0, maxZoom := .posInf, pixelRatio := .fin 1 })
    ∧ decodeOfflineRegionDefinition
        (sampleStrictLibrary geometryOnlyText (geometryDocumentWith [])) geometryOnlyText
      = .ok (.geometry
          { styleURL := "x", geometry := .point ⟨.fin 0, .fin 0⟩, minZoom := .fin 0,
            maxZoom := .posInf, pixelRatio := .fin 1 }) :=
  ⟨by decide, by decide, by decide, by decide, by decide, by decide, by decide⟩

/-- The document written for a definition passes the validation, when the
GeoJSON converter writes a geometry as an object. -/
theorem structurallyValid_encode (L : CodecLibrary) (d : OfflineRegionDefinition)
    (hobj : ∀ g, d = .geometry g → (L.fromGeometry g.geometry).IsObject = true) :
    ∃ ms, encodeDocument L d = .object ms ∧ structurallyValid ms = true := by
  cases d with
  | tilePyramid p =>
    obtain ⟨ms, hms, hs, hm, hx, hp, hb, _, _⟩ := findMember_encode_tilePyramid L p
    refine ⟨ms, hms, ?_⟩
    cases hf : Dbl.isfinite p.maxZoom <;>
      simp [structurallyValid, memberIs, boundsAre, maxZoomIs, hs, hm, hx, hp, hb, hf,
        JValue.IsString, JValue.IsDouble]
  | geometry g =>
    obtain ⟨ms, hms, hs, hm, hx, hp, hb, hg, _⟩ := findMember_encode_geometry L g
    refine ⟨ms, hms, ?_⟩
    have ho := hobj g rfl
    cases hf : Dbl.isfinite g.maxZoom <;>
      simp [structurallyValid, memberIs, boundsAre, maxZoomIs, hs, hm, hx, hp, hb, hg, hf, ho,
        JValue.IsString, JValue.IsDouble]

/-- C20. The document that `encodeOfflineRegionDefinition` writes passes the
validation of `decodeOfflineRegionDefinition`: the condition of the `throw` of
"Malformed offline region definition" is false.  A definition decoded from it
is of the same variant; and for a definition that its constructor returns,
with a library that is exact on it, the decoding returns one.  The parser
reads back the document written, and the GeoJSON converter writes a geometry as
an object. -/
theorem encode_passes_validation (L : CodecLibrary) (d : OfflineRegionDefinition)
    (hparse : L.Parse (L.Write (encodeDocument L d))
      = { HasParseError := false, root := encodeDocument L d })
    (hobj : ∀ g, d = .geometry g → (L.fromGeometry g.geometry).IsObject = true) :
    isMalformed (L.Parse (encodeOfflineRegionDefinition L d)) = .ok false
    ∧ (∀ d0, decodeOfflineRegionDefinition L (encodeOfflineRegionDefinition L d) = .ok d0 →
        d.sameVariant d0 = true)
    ∧ (d.Constructed → L.ExactOn d →
        ∃ d0, decodeOfflineRegionDefinition L (encodeOfflineRegionDefinition L d) = .ok d0
          ∧ d.sameVariant d0 = true) := by
  obtain ⟨ms, hms, hv⟩ := structurallyValid_encode L d hobj
  have hdoc : L.Parse (encodeOfflineRegionDefinition L d)
      = { HasParseError := false, root := .object ms } := by
    unfold encodeOfflineRegionDefinition
    rw [hparse, hms]
  refine ⟨?_, ?_, ?_⟩
  · rw [hdoc, isMalformed_object, hv]
    rfl
  · intro d0 h0
    unfold decodeOfflineRegionDefinition at h0
    rw [hdoc] at h0
    obtain ⟨s, a, p, hs, hm, hp, hx, _⟩ := structurallyValid_members ms hv
    cases d with
    | tilePyramid q =>
      obtain ⟨ms1, hms1, _, _, _, _, hb, _, _⟩ := findMember_encode_tilePyramid L q
      have hmm : ms1 = ms := by
        rw [hms1] at hms
        injection hms
      subst hmm
      rw [decodeDocument_of_bounds L ms1 s a p _ _ _ _ hs hm hp hx hb] at h0
      cases hc : OfflineTilePyramidRegionDefinition.construct s
        (LatLngBounds.hull ⟨q.bounds.south, q.bounds.west⟩ ⟨q.bounds.north, q.bounds.east⟩) a
        (maxZoomOf ms1) (L.toFloat p) with
      | error e => rw [hc] at h0; cases h0
      | ok t =>
        rw [hc] at h0
        have ht : OfflineRegionDefinition.tilePyramid t = d0 := by injection h0
        rw [← ht]
        rfl
    | geometry g =>
      obtain ⟨ms1, hms1, _, _, _, _, hb, hg, _⟩ := findMember_encode_geometry L g
      have hmm : ms1 = ms := by
        rw [hms1] at hms
        injection hms
      subst hmm
      obtain ⟨gs, hgs⟩ := geometry_of_no_bounds ms1 hv hb
      rw [decodeDocument_of_geometry L ms1 gs s a p hs hm hp hx hb hgs] at h0
      cases hgeo : L.toGeometry (.object gs) with
      | error e => rw [hgeo] at h0; cases h0
      | ok g0 =>
        rw [hgeo] at h0
        simp only at h0
        cases hc : OfflineGeometryRegionDefinition.construct s g0 a (maxZoomOf ms1)
          (L.toFloat p) with
        | error e => rw [hc] at h0; cases h0
        | ok t =>
          rw [hc] at h0
          have ht : OfflineRegionDefinition.geometry t = d0 := by injection h0
          rw [← ht]
          rfl
  · intro hd hL
    cases d with
    | tilePyramid p => exact ⟨_, decode_encode_tilePyramid_hull L p hd hL, rfl⟩
    | geometry g => exact ⟨_, decode_encode_geometry L g hd hL, rfl⟩

/-- C20, on the region of the test `TileCoverTileSize`. -/
theorem encode_passes_validation_witness :
    isMalformed ((sampleCodecLibrary sampleWorldText sampleWorldDocument).Parse
        (encodeOfflineRegionDefinition (sampleCodecLibrary sampleWorldText sampleWorldDocument)
          (.tilePyramid sampleWorld))) = .ok false
    ∧ ∃ d0, decodeOfflineRegionDefinition
          (sampleCodecLibrary sampleWorldText sampleWorldDocument)
          (encodeOfflineRegionDefinition
            (sampleCodecLibrary sampleWorldText sampleWorldDocument)
            (.tilePyramid sampleWorld)) = .ok d0
        ∧ OfflineRegionDefinition.sameVariant (.tilePyramid sampleWorld) d0 = true :=
  ⟨(encode_passes_validation (sampleCodecLibrary sampleWorldText sampleWorldDocument)
      (.tilePyramid sampleWorld) (by rfl) (fun g h => by cases h)).1,
    (encode_passes_validation (sampleCodecLibrary sampleWorldText sampleWorldDocument)
      (.tilePyramid sampleWorld) (by rfl) (fun g h => by cases h)).2.2 (by rfl)
      ⟨by rfl, by rfl, trivial⟩⟩

end mbgl
